import Mathlib

/-!
Verification development for the SmartGrade exam-grading engine
(`app/services/grading_service.py`).

The embedding works over `List Char` for Python strings, an inductive `JVal`
for Python's JSON values, and exact decimal numbers `Dec10` (mantissa times a
power of ten) for the numbers produced by `json.loads` and `float(...)`; the
aggregation layer (`combine_results_v2`) is embedded over `ℚ`.  Python float
arithmetic is idealised as exact rational arithmetic throughout, the standard
shallow-embedding convention; all concrete inputs used in theorems are chosen
so that the float and rational computations agree.
-/

set_option maxRecDepth 8000

namespace SmartGrade

/-- Left brace character, written via its code point. -/
def lbrace : Char := Char.ofNat 123

/-- Right brace character, written via its code point. -/
def rbrace : Char := Char.ofNat 125

/-- Backtick character, written via its code point. -/
def btick : Char := Char.ofNat 96

/-- JSON whitespace, as accepted between tokens by Python's `json.loads`. -/
def isJsonWs (c : Char) : Bool :=
  c = ' ' || c = '\t' || c = '\n' || c = '\r'

/-- ASCII whitespace as matched by the regex class `\s` and stripped by
`str.rstrip()` (the inputs in this development contain no non-ASCII
whitespace). -/
def isPyWs (c : Char) : Bool :=
  isJsonWs c || c = Char.ofNat 11 || c = Char.ofNat 12

/-- Model of Python `str.rstrip()`: drop trailing whitespace. -/
def rstripPy (cs : List Char) : List Char :=
  (cs.reverse.dropWhile isPyWs).reverse

/-- Model of Python `str.find(c)`: index of the first occurrence, `none` for
Python's `-1`. -/
def firstIdx (c : Char) : List Char → Option Nat
  | [] => none
  | x :: xs => if x = c then some 0 else (firstIdx c xs).map (· + 1)

/-- Model of Python `str.rfind(c)`: index of the last occurrence. -/
def lastIdx (c : Char) : List Char → Option Nat
  | [] => none
  | x :: xs =>
    match lastIdx c xs with
    | some i => some (i + 1)
    | none => if x = c then some 0 else none

/-- Model of the Python slice `s[a:b]`. -/
def sliceL (cs : List Char) (a b : Nat) : List Char :=
  (cs.drop a).take (b - a)

/-- Model of Python `s.count(c)` for a single character. -/
def countCh (c : Char) (cs : List Char) : Nat :=
  cs.count c

/-- Prefix test on character lists (`str.startswith`). -/
def startsWithL : List Char → List Char → Bool
  | [], _ => true
  | _ :: _, [] => false
  | p :: ps, c :: cs => p = c && startsWithL ps cs

/-- Case-insensitive prefix test, used for the `(?:json)?` part of the fenced
code-block regex compiled with `re.IGNORECASE`. -/
def startsWithCI : List Char → List Char → Bool
  | [], _ => true
  | _ :: _, [] => false
  | p :: ps, c :: cs => p.toLower = c.toLower && startsWithCI ps cs

/-- Substring containment, the Python `needle in haystack` test on strings. -/
def subOf (pat : List Char) : List Char → Bool
  | [] => startsWithL pat []
  | c :: cs => startsWithL pat (c :: cs) || subOf pat cs

/-- Exact decimal number `mant * 10 ^ exp10`, the value form produced by
`json.loads` for JSON numbers and by `float()` on decimal literals.  Python
floats are idealised as these exact decimals. -/
structure Dec10 where
  mant : Int
  exp10 : Int
deriving DecidableEq, Repr

/-- The number zero. -/
def d0 : Dec10 := ⟨0, 0⟩

/-- Rational value of an exact decimal. -/
def Dec10.toRat (a : Dec10) : ℚ :=
  (a.mant : ℚ) * (10 : ℚ) ^ a.exp10

/-- Comparison of exact decimals by cross-multiplication; `decLe a b` decides
`a ≤ b` without leaving the integers, so it evaluates in the kernel. -/
def decLe (a b : Dec10) : Bool :=
  if a.exp10 ≤ b.exp10 then
    decide (a.mant ≤ b.mant * 10 ^ (b.exp10 - a.exp10).toNat)
  else
    decide (a.mant * 10 ^ (a.exp10 - b.exp10).toNat ≤ b.mant)

/-- Python `min(a, b)`: returns the first argument on ties. -/
def decMin (a b : Dec10) : Dec10 :=
  if decLe a b then a else b

/-- Python `max(a, b)`: returns the first argument on ties. -/
def decMax (a b : Dec10) : Dec10 :=
  if decLe b a then a else b

/-- Python JSON values as returned by `json.loads`.  Object members keep the
raw member list; Python-`dict` semantics (one slot per key, last duplicate
wins, insertion order) are recovered through `dictGet`. -/
inductive JVal where
  | jnull
  | jbool (b : Bool)
  | jnum (n : Dec10)
  | jstr (s : List Char)
  | jarr (elems : List JVal)
  | jobj (members : List (List Char × JVal))
deriving Repr

/-- Members list of an object, `[]` for every other value. -/
def membersOf : JVal → List (List Char × JVal)
  | .jobj ms => ms
  | _ => []

/-- Object discriminator. -/
def isObj : JVal → Bool
  | .jobj _ => true
  | _ => false

/-- Python `dict` lookup over a raw member list: the last occurrence of the
key wins, matching how `json.loads` builds its `dict`. -/
def dictGet (key : List Char) : List (List Char × JVal) → Option JVal
  | [] => none
  | (k, v) :: rest =>
    match dictGet key rest with
    | some r => some r
    | none => if k = key then some v else none

/-- Python truthiness of a JSON value (`if result:`). -/
def jTruthy : JVal → Bool
  | .jnull => false
  | .jbool b => b
  | .jnum n => !(n.mant = 0 : Bool)
  | .jstr s => !s.isEmpty
  | .jarr xs => !xs.isEmpty
  | .jobj ms => !ms.isEmpty

/-- Whitespace skipping between JSON tokens. -/
def skipJWs (cs : List Char) : List Char :=
  cs.dropWhile isJsonWs

/-- Hexadecimal digit value. -/
def hexDigit (c : Char) : Option Nat :=
  if '0' ≤ c ∧ c ≤ '9' then some (c.toNat - '0'.toNat)
  else if 'a' ≤ c ∧ c ≤ 'f' then some (c.toNat - 'a'.toNat + 10)
  else if 'A' ≤ c ∧ c ≤ 'F' then some (c.toNat - 'A'.toNat + 10)
  else none

/-- Single-character JSON escapes. -/
def escChar (c : Char) : Option Char :=
  if c = '"' then some '"'
  else if c = '\\' then some '\\'
  else if c = '/' then some '/'
  else if c = 'n' then some '\n'
  else if c = 't' then some '\t'
  else if c = 'r' then some '\r'
  else if c = 'b' then some (Char.ofNat 8)
  else if c = 'f' then some (Char.ofNat 12)
  else none

/-- Body of a JSON string after the opening quote.  With `strict=False` (as
the source passes to `json.loads`) unescaped control characters are allowed,
so every character other than `"` and `\` is taken verbatim.  Surrogate-pair
recombination of consecutive `\u` escapes is not modelled (no claim input
contains astral characters). -/
def parseStrBody (acc : List Char) : List Char → Option (List Char × List Char)
  | [] => none
  | c :: rest =>
    if c = '"' then some (acc.reverse, rest)
    else if c = '\\' then
      match rest with
      | [] => none
      | e :: rest' =>
        if e = 'u' then
          match rest' with
          | a :: b :: c2 :: d :: rest'' =>
            match hexDigit a, hexDigit b, hexDigit c2, hexDigit d with
            | some va, some vb, some vc, some vd =>
              parseStrBody (Char.ofNat (((va * 16 + vb) * 16 + vc) * 16 + vd) :: acc) rest''
            | _, _, _, _ => none
          | _ => none
        else
          match escChar e with
          | some ch => parseStrBody (ch :: acc) rest'
          | none => none
    else parseStrBody (c :: acc) rest

/-- Decimal digit test. -/
def isDigitC (c : Char) : Bool := '0' ≤ c && c ≤ '9'

/-- Longest leading digit run. -/
def takeDigits : List Char → List Char × List Char
  | [] => ([], [])
  | c :: cs =>
    if isDigitC c then
      let (ds, r) := takeDigits cs
      (c :: ds, r)
    else ([], c :: cs)

/-- Natural value of a digit run. -/
def digitsVal (ds : List Char) : Nat :=
  ds.foldl (fun acc c => acc * 10 + (c.toNat - '0'.toNat)) 0

/-- JSON number per Python's grammar
`-?(0|[1-9][0-9]*)(\.[0-9]+)?([eE][+-]?[0-9]+)?` (leading zeros rejected);
the non-finite constants `NaN`/`Infinity` that Python additionally accepts
have no exact-decimal value and are not modelled (no claim involves them).
Yields the exact value `mant * 10 ^ exp10`. -/
def parseNumber (cs : List Char) : Option (Dec10 × List Char) :=
  let (neg, cs1) :=
    match cs with
    | c :: r => if c = '-' then (true, r) else (false, cs)
    | [] => (false, cs)
  let (intDs, cs2) := takeDigits cs1
  match intDs with
  | [] => none
  | d :: ds =>
    if d = '0' ∧ ds ≠ [] then none
    else
      let (fracDs, cs3) :=
        match cs2 with
        | c :: r =>
          if c = '.' then
            match takeDigits r with
            | ([], _) => ([], cs2)
            | (fs, r') => (fs, r')
          else ([], cs2)
        | [] => ([], cs2)
      let (e, cs4) : Int × List Char :=
        match cs3 with
        | c :: r =>
          if c = 'e' ∨ c = 'E' then
            let (esgn, r1) :=
              match r with
              | c2 :: r' =>
                if c2 = '+' then ((1 : Int), r')
                else if c2 = '-' then ((-1 : Int), r')
                else ((1 : Int), r)
              | [] => ((1 : Int), r)
            match takeDigits r1 with
            | ([], _) => (0, cs3)
            | (eds, r2) => (esgn * digitsVal eds, r2)
          else (0, cs3)
        | [] => (0, cs3)
      some (⟨(if neg then -1 else 1) * digitsVal (intDs ++ fracDs), e - (fracDs.length : Int)⟩, cs4)

mutual

/-- Recursive-descent value parser modelling `json.loads`.  The fuel argument
only forces termination; `jsonLoads` supplies enough fuel that it never runs
out on the inputs reached.  The branch on the head character means an object
result can only arise from an input whose first non-blank character is an
opening brace — the fact behind `parseValue_obj_mem` below. -/
def parseValue : Nat → List Char → Option (JVal × List Char)
  | 0, _ => none
  | fuel + 1, cs =>
    match skipJWs cs with
    | [] => none
    | c :: r =>
      if c = lbrace then
        match parseObjBody fuel r with
        | some (ms, rest) => some (.jobj ms, rest)
        | none => none
      else parseLeaf fuel (c :: r)
termination_by structural fuel => fuel

/-- Non-object values: arrays, strings, literals and numbers. -/
def parseLeaf : Nat → List Char → Option (JVal × List Char)
  | 0, _ => none
  | fuel + 1, cs =>
    match cs with
    | [] => none
    | c :: r =>
      if c = '[' then
        match parseArrBody fuel r with
        | some (xs, rest) => some (.jarr xs, rest)
        | none => none
      else if c = '"' then
        match parseStrBody [] r with
        | some (s, rest) => some (.jstr s, rest)
        | none => none
      else if c = 't' then
        if startsWithL ['r', 'u', 'e'] r then some (.jbool true, r.drop 3) else none
      else if c = 'f' then
        if startsWithL ['a', 'l', 's', 'e'] r then some (.jbool false, r.drop 4) else none
      else if c = 'n' then
        if startsWithL ['u', 'l', 'l'] r then some (.jnull, r.drop 3) else none
      else if c = '-' || isDigitC c then
        match parseNumber cs with
        | some (n, rest) => some (.jnum n, rest)
        | none => none
      else none
termination_by structural fuel => fuel

/-- Object body after the opening brace: either an immediate closing brace or
one-or-more members. -/
def parseObjBody : Nat → List Char → Option (List (List Char × JVal) × List Char)
  | 0, _ => none
  | fuel + 1, cs =>
    match skipJWs cs with
    | [] => none
    | c :: r =>
      if c = rbrace then some ([], r)
      else parseMembers fuel (c :: r)
termination_by structural fuel => fuel

/-- One-or-more comma-separated `"key": value` members, positioned at the
first character of a key. -/
def parseMembers : Nat → List Char → Option (List (List Char × JVal) × List Char)
  | 0, _ => none
  | fuel + 1, cs =>
    match cs with
    | [] => none
    | c :: r =>
      if c = '"' then
        match parseStrBody [] r with
        | some (key, r1) =>
          match skipJWs r1 with
          | c2 :: r2 =>
            if c2 = ':' then
              match parseValue fuel r2 with
              | some (v, r3) =>
                match skipJWs r3 with
                | c3 :: r4 =>
                  if c3 = ',' then
                    match parseMembers fuel (skipJWs r4) with
                    | some (ms, r5) => some ((key, v) :: ms, r5)
                    | none => none
                  else if c3 = rbrace then some ([(key, v)], r4)
                  else none
                | [] => none
              | none => none
            else none
          | [] => none
        | none => none
      else none
termination_by structural fuel => fuel

/-- Array body after the opening bracket. -/
def parseArrBody : Nat → List Char → Option (List JVal × List Char)
  | 0, _ => none
  | fuel + 1, cs =>
    match skipJWs cs with
    | [] => none
    | c :: r =>
      if c = ']' then some ([], r)
      else parseItems fuel (c :: r)
termination_by structural fuel => fuel

/-- One-or-more comma-separated array elements. -/
def parseItems : Nat → List Char → Option (List JVal × List Char)
  | 0, _ => none
  | fuel + 1, cs =>
    match parseValue fuel cs with
    | some (v, r) =>
      match skipJWs r with
      | c :: r' =>
        if c = ',' then
          match parseItems fuel r' with
          | some (xs, r'') => some (v :: xs, r'')
          | none => none
        else if c = ']' then some ([v], r')
        else none
      | [] => none
    | none => none
termination_by structural fuel => fuel

end

/-- Model of `json.loads(text, strict=False)`: parse one value and require
that only whitespace remains, as Python raises on trailing data.  The fuel
`4 * (length + 2)` over-approximates the call depth (at most four parser
steps happen per consumed input character), so the parser never runs dry on
any input it could accept. -/
def jsonLoads (cs : List Char) : Option JVal :=
  match parseValue (4 * (cs.length + 2)) cs with
  | some (v, rest) => if (skipJWs rest).isEmpty then some v else none
  | none => none

/-- The `text.replace('\t', '\\t')` pre-step of `try_parse`. -/
def tabRep : List Char → List Char
  | [] => []
  | c :: cs => if c = '\t' then '\\' :: 't' :: tabRep cs else c :: tabRep cs

/-- Model of the source's `try_parse`: tab replacement followed by
`json.loads`, with a decode error mapped to `None`. -/
def tryParse (cs : List Char) : Option JVal :=
  jsonLoads (tabRep cs)

/-- Model of Python `float(str)`: strip whitespace, optional sign, decimal
digits around an optional point, optional exponent, nothing else.  The
non-finite spellings (`inf`, `nan`) and digit-group underscores Python also
accepts are not modelled (no claim involves them) and map to `none`, i.e. to
the same ValueError branch as any other non-numeric string. -/
def floatOfChars (cs : List Char) : Option Dec10 :=
  let t := ((cs.dropWhile isPyWs).reverse.dropWhile isPyWs).reverse
  let (neg, t1) :=
    match t with
    | c :: r => if c = '-' then (true, r) else if c = '+' then (false, r) else (false, t)
    | [] => (false, t)
  let (intDs, t2) := takeDigits t1
  let (fracDs, t3) :=
    match t2 with
    | c :: r => if c = '.' then takeDigits r else ([], t2)
    | [] => ([], t2)
  if intDs = [] ∧ fracDs = [] then none
  else
    let expPart : Option (Int × List Char) :=
      match t3 with
      | c :: r =>
        if c = 'e' ∨ c = 'E' then
          let (esgn, r1) :=
            match r with
            | c2 :: r' =>
              if c2 = '+' then ((1 : Int), r')
              else if c2 = '-' then ((-1 : Int), r')
              else ((1 : Int), r)
            | [] => ((1 : Int), r)
          match takeDigits r1 with
          | ([], _) => none
          | (eds, r2) => some (esgn * digitsVal eds, r2)
        else some (0, t3)
      | [] => some (0, t3)
    match expPart with
    | none => none
    | some (e, t4) =>
      if t4 = [] then
        some ⟨(if neg then -1 else 1) * digitsVal (intDs ++ fracDs), e - (fracDs.length : Int)⟩
      else none

/-- Model of Python `float(x)` on a JSON value: numbers pass through, bools
coerce to 0/1, numeric strings parse, and everything else raises (is
`none`). -/
def pyFloat : JVal → Option Dec10
  | .jnum n => some n
  | .jbool b => some ⟨if b then 1 else 0, 0⟩
  | .jstr s => floatOfChars s
  | _ => none

/-- Key of the score field. -/
def scoreKey : List Char := "score".data

/-- Dict assignment `result['score'] = x` on a raw member list: every slot of
the key is overwritten, so `dictGet` sees the new value exactly as a Python
`dict` would. -/
def setScoreVal (x : JVal) (ms : List (List Char × JVal)) : List (List Char × JVal) :=
  ms.map (fun p => if p.1 = scoreKey then (p.1, x) else p)

/-- Model of `process_result` in `parse_grading_response` (source lines
495-507): falsy or non-dict results die; a present `score` is coerced with
`float` and clamped to `[0, max_score]`, a coercion failure writes 0, and a
missing `score` is left untouched.  The `clean_analysis` step is a
markdown-stripping reformat of the `analysis` string that no claim refers
to; the field is kept verbatim here. -/
def processResult (maxScore : Dec10) (v : JVal) : Option (List (List Char × JVal)) :=
  if !jTruthy v then none
  else
    match v with
    | .jobj ms =>
      match dictGet scoreKey ms with
      | some sv =>
        match pyFloat sv with
        | some q => some (setScoreVal (.jnum (decMax d0 (decMin q maxScore))) ms)
        | none => some (setScoreVal (.jnum d0) ms)
      | none => some ms
    | _ => none

/-- Index of the first occurrence of a triple-backtick fence. -/
def fenceIdx : List Char → Option Nat
  | [] => none
  | c :: cs =>
    if startsWithL [btick, btick, btick] (c :: cs) then some 0
    else (fenceIdx cs).map (· + 1)

/-- Characters of the tag consumed by `(?:json)?`. -/
def jsonTag : List Char := "json".data

/-- Model of `re.findall` for the pattern
`` ```(?:json)?\s*([\s\S]*?)\s*``` `` with `re.IGNORECASE`: after an opening
fence, an optional case-insensitive `json` tag and greedy whitespace are
consumed; the lazy capture then ends at the earliest following fence, which
makes the captured block the text up to that fence with trailing whitespace
stripped; scanning resumes after the closing fence.  When no closing fence
follows, no further match is possible (any later opening fence would itself
have closed this one), so the scan stops.  `afterFence` is the position
right after an opening fence, optional tag and leading whitespace. -/
def afterFence (cs : List Char) (p : Nat) : List Char :=
  let r1 := cs.drop (p + 3)
  (if startsWithCI jsonTag r1 then r1.drop 4 else r1).dropWhile isPyWs

/-- Scan step of the fenced-block extraction, see `extractBlocks`. -/
def extractBlocksAux : Nat → List Char → List (List Char)
  | 0, _ => []
  | fuel + 1, cs =>
    match fenceIdx cs with
    | none => []
    | some p =>
      let r3 := afterFence cs p
      match fenceIdx r3 with
      | none => []
      | some q => rstripPy (r3.take q) :: extractBlocksAux fuel (r3.drop (q + 3))

/-- All fenced code-block captures of a text, in match order. -/
def extractBlocks (cs : List Char) : List (List Char) :=
  extractBlocksAux (cs.length + 1) cs

/-- Stable insertion step for the descending-length sort. -/
def insLen (b : List Char) : List (List Char) → List (List Char)
  | [] => [b]
  | x :: xs => if b.length < x.length then x :: insLen b xs else b :: x :: xs

/-- Model of `sorted(code_blocks, key=len, reverse=True)`: stable, longest
first. -/
def sortLenDesc : List (List Char) → List (List Char)
  | [] => []
  | x :: xs => insLen x (sortLenDesc xs)

/-- Parse attempt on one fenced block or on the brace-delimited slice of the
whole text: slice from the first opening brace to the last closing brace,
strict-parse, and post-process (source lines 514-522 and 525-533). -/
def braceSliceAttempt (maxScore : Dec10) (b : List Char) : Option (List (List Char × JVal)) :=
  match firstIdx lbrace b, lastIdx rbrace b with
  | some s, some e =>
    if s < e then
      match tryParse (sliceL b s (e + 1)) with
      | some res => if jTruthy res then processResult maxScore res else none
      | none => none
    else none
  | _, _ => none

/-- Loop over the sorted blocks, first success wins. -/
def tryBlocks (maxScore : Dec10) : List (List Char) → Option (List (List Char × JVal))
  | [] => none
  | b :: bs =>
    match braceSliceAttempt maxScore b with
    | some r => some r
    | none => tryBlocks maxScore bs

/-- The candidate string the repair step works on (source lines 524-539):
the brace-delimited slice when both braces were found in order, the suffix
from the first opening brace when no closing brace follows it, and the whole
text when there is no opening brace. -/
def mainJsonStr (cs : List Char) : List Char :=
  match firstIdx lbrace cs with
  | some s =>
    match lastIdx rbrace cs with
    | some e => if s < e then sliceL cs s (e + 1) else cs.drop s
    | none => cs.drop s
  | none => cs

/-- The brace/quote-balancing repair step (source lines 541-551): strip
trailing whitespace, append a quote when the quote count is odd, append the
deficit of closing braces, and retry the parse. -/
def repairAttempt (maxScore : Dec10) (jsonStr : List Char) :
    Option (List (List Char × JVal)) :=
  let js1 := rstripPy jsonStr
  let js2 := if countCh '"' js1 % 2 = 1 then js1 ++ ['"'] else js1
  let js3 :=
    if countCh rbrace js2 < countCh lbrace js2 then
      js2 ++ List.replicate (countCh lbrace js2 - countCh rbrace js2) rbrace
    else js2
  match tryParse js3 with
  | some res => if jTruthy res then processResult maxScore res else none
  | none => none

/-- Model of `ExamGrader.parse_grading_response` (source lines 471-553): try
each fenced code block longest-first, then the brace-delimited slice of the
whole text, then brace/quote-balancing repair of the remaining candidate
string; `none` is Python's `None` for an unrecoverable response. -/
def parseGradingResponse (cs : List Char) (maxScore : Dec10) :
    Option (List (List Char × JVal)) :=
  match tryBlocks maxScore (sortLenDesc (extractBlocks cs)) with
  | some r => some r
  | none =>
    match braceSliceAttempt maxScore cs with
    | some r => some r
    | none => repairAttempt maxScore (mainJsonStr cs)

/-- Numeric payload of an optional JSON value, `none` when absent or not a
number. -/
def numValOf : Option JVal → Option Dec10
  | some (.jnum n) => some n
  | _ => none

/-- Score field of a parse result, as an exact decimal. -/
def scoreOf (r : Option (List (List Char × JVal))) : Option Dec10 :=
  numValOf (r.bind (dictGet scoreKey))

/-- Python `round()` on an exact rational: round half to even (banker's
rounding), which is what CPython's `round` does on floats. -/
def pyRound (q : ℚ) : ℤ :=
  if q - ⌊q⌋ < 1 / 2 then ⌊q⌋
  else if (1 : ℚ) / 2 < q - ⌊q⌋ then ⌊q⌋ + 1
  else if 2 ∣ ⌊q⌋ then ⌊q⌋ else ⌊q⌋ + 1

/-- The spec's `round_to_nearest_half`, realised as the source expression
`round(x * 2) / 2`. -/
def roundToNearestHalf (x : ℚ) : ℚ :=
  (pyRound (2 * x) : ℚ) / 2

/-- Per-provider entry stored in `question_results` for one question: the
fields of a `grade_with_model` result that `combine_results_v2` reads
(`score`, and `analysis`/`comment` via `.get`).  The empty string models an
absent or empty text field, which Python treats identically in the only uses
(`if res.get(...)` truthiness and `len`); the stored `is_correct` flag is
never read by the aggregator and is omitted. -/
structure PEntry where
  score : ℚ
  analysis : String
  comment : String
deriving Repr, DecidableEq

/-- Outcome of one `grade_with_model` call as seen by the per-question loop
(source lines 1094-1103): either a success result or a failure with its
error message. -/
inductive GradeOutcome where
  | ok (e : PEntry)
  | failed (err : String)
deriving Repr

/-- The per-question loop body (source lines 1094-1103): a successful call
stores its result; a failed call stores `{'score': 0, 'is_correct': False,
'comment': error}` — a zero-score data point, not a missing one. -/
def questionResults (outs : List (String × GradeOutcome)) : List (String × PEntry) :=
  outs.map (fun p =>
    match p.2 with
    | .ok e => (p.1, e)
    | .failed err => (p.1, ⟨0, "", err⟩))

/-- Question descriptor as carried in `questions_to_grade`: keys `id`,
`group`, `unique_id`, `score`, `box_2d`. -/
structure QuestionSpec where
  id : String
  group : Option String
  uniqueId : String
  score : Option ℚ
  box2d : Option (List Int)
deriving Repr

/-- The `q_info_map` lookup of `combine_results_v2` (source line 1148): a
dict comprehension keyed by truthy `unique_id` (last duplicate wins),
then `.get(q_id)`. -/
def qInfoFor (qs : List QuestionSpec) (qid : String) : Option QuestionSpec :=
  (qs.filter (fun q => !(q.uniqueId == ""))).foldl
    (fun acc q => if q.uniqueId = qid then some q else acc) none

/-- Resolution of a question's max score at aggregation and grading time
(source lines 1066-1073 and 1152-1159): the structure-supplied value if any,
else the caller default.  The `float()` re-coercion is the identity on the
already-numeric scores this embedding stores. -/
def resolvedMax (qscore : Option ℚ) (defaultMax : ℚ) : ℚ :=
  match qscore with
  | none => defaultMax
  | some v => v

/-- Second analysis-selection pass: the longest truthy comment (source lines
1189-1191). -/
def longestComment (entries : List (String × PEntry)) : String :=
  entries.foldl
    (fun acc e => if e.2.comment ≠ "" ∧ acc.length < e.2.comment.length then e.2.comment else acc)
    ""

/-- Analysis selection (source lines 1183-1191): the first provider with a
truthy `analysis`, else the longest truthy `comment`. -/
def chooseAnalysis (entries : List (String × PEntry)) : String :=
  match entries.find? (fun e => !(e.2.analysis == "")) with
  | some e => e.2.analysis
  | none => longestComment entries

/-- Python `q_id.rsplit('-', 1)` when `'-'` occurs: split at the last
dash. -/
def splitLastDash (s : String) : String × String :=
  match lastIdx '-' s.data with
  | some i => (String.mk (s.data.take i), String.mk (s.data.drop (i + 1)))
  | none => (s, "")

/-- Aggregated result for one question, the entry of `final_results` built by
`combine_results_v2` (source lines 1196-1210). -/
structure QResult where
  questionId : String
  score : ℚ
  maxScore : ℚ
  isCorrect : Bool
  comment : String
  analysis : String
  modelScores : List (String × PEntry)
  box2d : Option (List Int)
  groupName : Option String
  subId : Option String
deriving Repr

/-- One iteration of the aggregation loop of `combine_results_v2` (source
lines 1150-1210).  The float constants 0.6 and 0.5 are idealised as the exact
rationals 3/5 and 1/2. -/
def perQuestion (questionsInfo : List QuestionSpec) (defaultMax : ℚ)
    (p : String × List (String × PEntry)) : QResult :=
  let qinfo := qInfoFor questionsInfo p.1
  let m := resolvedMax (qinfo.bind (fun q => q.score)) defaultMax
  let scores := p.2.map (fun e => e.2.score)
  let finalScore : ℚ :=
    if 0 < scores.length then
      max 0 (min (roundToNearestHalf (scores.sum / (scores.length : ℚ))) m)
    else 0
  let isCorrect := decide (m * (3 / 5) ≤ finalScore)
  let comment :=
    if isCorrect then "正确"
    else if m * (1 / 2) ≤ finalScore then "基本正确"
    else if 0 < finalScore then "部分正确"
    else "错误"
  let split :=
    if p.1.data.contains '-' then
      some (splitLastDash p.1)
    else none
  ⟨p.1, finalScore, m, isCorrect, comment, chooseAnalysis p.2, p.2,
    qinfo.bind (fun q => q.box2d), split.map (fun q => q.1), split.map (fun q => q.2)⟩

/-- The exam-level report built by `combine_results_v2` (source lines
1212-1219). -/
structure CombinedReport where
  details : List (String × QResult)
  totalScore : ℚ
  maxTotalScore : ℚ
  accuracy : ℚ
  correctCount : Nat
  totalCount : Nat
deriving Repr

/-- Model of `ExamGrader.combine_results_v2` (source lines 1140-1219): map
the per-question aggregation over `all_results` and accumulate the totals. -/
def combineResultsV2 (allResults : List (String × List (String × PEntry)))
    (questionsInfo : List QuestionSpec) (defaultMax : ℚ) : CombinedReport :=
  let details := allResults.map (fun p => (p.1, perQuestion questionsInfo defaultMax p))
  let total := (details.map (fun d => d.2.score)).sum
  let maxTotal := (details.map (fun d => d.2.maxScore)).sum
  ⟨details, total, maxTotal,
    if 0 < maxTotal then total / maxTotal else 0,
    (details.filter (fun d => d.2.isCorrect)).length,
    details.length⟩

/-- Mean over only the providers that succeeded, the aggregation rule the
spec's words describe ("the mean of however many providers actually returned
a usable score"); compared against the source behaviour in claim C1. -/
def usableScores (outs : List (String × GradeOutcome)) : List ℚ :=
  outs.filterMap (fun p =>
    match p.2 with
    | .ok e => some e.score
    | .failed _ => none)

/-- Question entry of a parsed structure-analysis response: `id`, `box_2d`
and `score` as read with `.get` (an explicit JSON `null`, which would crash
the source downstream, is not distinguished from an absent key).  JSON
numbers are carried at their idealised rational value. -/
structure SQInfo where
  id : Option String
  box2d : Option (List Int)
  score : Option ℚ
deriving Repr

/-- Group entry of a parsed structure-analysis response. -/
structure SGroup where
  name : Option String
  defaultScore : Option ℚ
  questions : List SQInfo
deriving Repr

/-- Shape of `structure_result` as consumed by
`grade_exam_with_multiple_models` (source lines 998-1047): the `success`
flag set by `analyze_exam_structure`, and the `groups`, `total_questions`
and `question_numbers` keys of the model's JSON. -/
structure StructureResult where
  success : Bool
  groups : Option (List SGroup)
  totalQuestions : Option Int
  questionNumbers : Option (List String)
deriving Repr

/-- First match of the answer-key score rules against a group name: the
Python loop `for key, score in text_scores.items(): if key in group_name`,
with dict order being insertion order. -/
def textScoreLookup (textScores : List (String × ℚ)) (gname : String) : Option ℚ :=
  (textScores.find? (fun r => subOf r.1.data gname.data)).map (fun r => r.2)

/-- Hard-coded per-category defaults (source lines 1022-1028): 选择
(multiple-choice) 3, 填空 (fill-in) 2, 判断 (true/false) 2. -/
def categoryDefault (gname : String) : Option ℚ :=
  if subOf "选择".data gname.data then some 3
  else if subOf "填空".data gname.data then some 2
  else if subOf "判断".data gname.data then some 2
  else none

/-- Point-value resolution for one question during structure processing
(source lines 1012-1028), as the source's sequence of `if q_score is None`
updates. -/
def resolveQuestionScore (textScores : List (String × ℚ)) (gname : String)
    (gdef : Option ℚ) (qscore : Option ℚ) : Option ℚ :=
  let s1 := match qscore with
    | none => gdef
    | some v => some v
  let s2 := match s1 with
    | none => if gname ≠ "" then textScoreLookup textScores gname else none
    | some v => some v
  match s2 with
  | none => categoryDefault gname
  | some v => some v

/-- Synthetic ungrouped questions from a list of identifiers. -/
def mkNumbered (ids : List String) : List QuestionSpec :=
  ids.map (fun qid => ⟨qid, none, qid, none, none⟩)

/-- Python `[str(i) for i in range(1, n + 1)]`. -/
def intRangeIds (n : Int) : List String :=
  (List.range n.toNat).map (fun i => toString (i + 1))

/-- The ten-question fallback list `[{"id": str(i), "group": None,
"unique_id": str(i), "score": None} for i in range(1, 11)]`. -/
def fallbackTen : List QuestionSpec :=
  mkNumbered (intRangeIds 10)

/-- Model of the question-list construction of
`grade_exam_with_multiple_models` when no question count was supplied
(source lines 998-1047): on analyzer failure the fixed ten-question
fallback; on success either the per-group question list (resolving point
values) or the `total_questions`/`question_numbers` path; and, when the
built list is empty, the secondary fallback that synthesises
`total_questions` entries only when that count is positive.
`groupQuestionSpec` is the per-question record built inside the group loop
(source lines 1009-1037). -/
def groupQuestionSpec (textScores : List (String × ℚ)) (g : SGroup) (q : SQInfo) :
    QuestionSpec :=
  let gname := g.name.getD "未知大题"
  let qid := q.id.getD ""
  ⟨qid, some gname, gname ++ "-" ++ qid,
    resolveQuestionScore textScores gname g.defaultScore q.score, q.box2d⟩

/-- See `buildQuestionsFromStructure`. -/
def buildQuestionsFromStructure (sr : StructureResult)
    (textScores : List (String × ℚ)) : List QuestionSpec :=
  if !sr.success then fallbackTen
  else
    let qs :=
      match sr.groups with
      | some gs => (gs.map (fun g => g.questions.map (groupQuestionSpec textScores g))).flatten
      | none =>
        let totalQ := sr.totalQuestions.getD 10
        let qnums := sr.questionNumbers.getD (intRangeIds totalQ)
        qnums.map (fun qn => (⟨qn, none, qn, none, none⟩ : QuestionSpec))
    if qs.isEmpty then
      let t := sr.totalQuestions.getD 0
      if 0 < t then mkNumbered (intRangeIds t) else qs
    else qs

/-- Fixed provider catalog of `check_available_models` (source lines
117-121). -/
def modelCatalog : List (String × String) :=
  [("qwen-vl-max", "Qwen-VL-Max (阿里云)"),
   ("gemini-3-pro", "Gemini 3 Pro (XhuoAI)"),
   ("glm-4v", "GLM-4V (智谱AI)")]

/-- Availability listing entry. -/
structure ModelInfo where
  id : String
  name : String
  status : String
  available : Bool
  error : Option String
deriving Repr

/-- Model of `ExamGrader.check_available_models` (source lines 113-135) over
the list of configured credential ids. -/
def checkAvailableModels (apiKeys : List String) : List ModelInfo :=
  modelCatalog.map (fun m =>
    if apiKeys.contains m.1 then ⟨m.1, m.2, "available", true, none⟩
    else ⟨m.1, m.2, "unavailable", false, some "未配置 API Key"⟩)

/-- Provider families `grade_with_model` dispatches on (source lines 236,
286, 316, 386, with a rejection branch at 420): name-prefix dispatch over
qwen, claude, gemini and glm. -/
def supportedProvider (name : String) : Bool :=
  startsWithL "qwen".data name.data || startsWithL "claude".data name.data ||
    startsWithL "gemini".data name.data || startsWithL "glm".data name.data

/-- Raw outcome of one provider transport call. -/
inductive ProviderResp where
  | text (s : String)
  | raises
deriving Repr

/-- Result dict of `grade_with_model` as the orchestration loop reads it:
the `success` flag, the parsed fields on success, and the `error` message on
failure. -/
structure GWMRes where
  success : Bool
  fields : List (List Char × JVal)
  error : Option String
deriving Repr

/-- Model of `ExamGrader.grade_with_model` (source lines 137-469) at the
level the claims need: missing credential, transport exception and
unparseable content each yield a failure result; a parseable response yields
a success result carrying the processed fields. -/
def gradeWithModelM (keyConfigured : Bool) (maxs : Dec10) (resp : ProviderResp) : GWMRes :=
  if !keyConfigured then ⟨false, [], some "未找到API密钥"⟩
  else
    match resp with
    | .raises => ⟨false, [], some "批改失败"⟩
    | .text s =>
      match parseGradingResponse s.data maxs with
      | none => ⟨false, [], some "无法解析模型响应"⟩
      | some fields => ⟨true, fields, none⟩

/-- String payload of an optional JSON value; absent, empty and non-string
text fields all map to `""`, which is how the aggregator's truthiness tests
treat them. -/
def strValOf : Option JVal → String
  | some (.jstr s) => String.mk s
  | _ => ""

/-- Key of the is_correct field. -/
def isCorrectKey : List Char := "is_correct".data

/-- Key of the analysis field. -/
def analysisKey : List Char := "analysis".data

/-- Key of the comment field. -/
def commentKey : List Char := "comment".data

/-- Per-provider step of the question loop (source lines 1083-1103).  A
success result is stored and then immediately formatted by the log line
`f"... 得分={result['score']}, 正确={result['is_correct']}"` (line 1096):
when the parsed response lacks a `score` or `is_correct` key, that access
raises `KeyError`, which no frame of `grade_exam_with_multiple_models`
catches — modelled as `Except.error`.  (A stored score that was not a number
would instead crash later in the aggregation arithmetic, also uncaught;
`process_result` in fact always stores numbers.)  A failure result is
replaced by the zero-score stub `{'score': 0, 'is_correct': False,
'comment': error}`. -/
def providerStep (keyConfigured : Bool) (maxs : Dec10) (prov : String)
    (resp : ProviderResp) : Except String (String × PEntry) :=
  let r := gradeWithModelM keyConfigured maxs resp
  if r.success then
    match dictGet scoreKey r.fields, dictGet isCorrectKey r.fields with
    | some (.jnum n), some _ =>
      .ok (prov, ⟨n.toRat, strValOf (dictGet analysisKey r.fields),
        strValOf (dictGet commentKey r.fields)⟩)
    | some _, some _ => .error "TypeError: non-numeric score in aggregation"
    | _, _ => .error "KeyError: missing score or is_correct field"
  else .ok (prov, ⟨0, "", r.error.getD "失败"⟩)

/-- Question descriptor at orchestration level, carrying the exact-decimal
point value handed to the parser's clamp; `qSpecOfD` is its rational view
handed to the aggregator. -/
structure QuestionSpecD where
  id : String
  group : Option String
  uniqueId : String
  score : Option Dec10
  box2d : Option (List Int)
deriving Repr

/-- Rational view of an orchestration-level question descriptor. -/
def qSpecOfD (q : QuestionSpecD) : QuestionSpec :=
  ⟨q.id, q.group, q.uniqueId, q.score.map Dec10.toRat, q.box2d⟩

/-- The synthetic numbered question list used when the caller supplies an
explicit question count (source line 1051). -/
def mkNumberedD (n : Nat) : List QuestionSpecD :=
  (List.range n).map (fun i => ⟨toString (i + 1), none, toString (i + 1), none, none⟩)

/-- Max-score resolution at grading time (source lines 1066-1073). -/
def currentMaxD (q : QuestionSpecD) (defaultMaxD : Dec10) : Dec10 :=
  q.score.getD defaultMaxD

/-- Terminal value of `grade_exam_with_multiple_models`: either the
no-provider refusal (source lines 976-981) or a report built by
`combine_results_v2`. -/
inductive ExamOutcome where
  | noProviders (err : String)
  | report (rep : CombinedReport)

/-- Model of `grade_exam_with_multiple_models` (source lines 935-1138) over
an explicit question list (built by `buildQuestionsFromStructure` or
`mkNumberedD` according to whether a question count was supplied).
`respOf provider questionId` is the transport outcome of each call. -/
def gradeExamM (apiKeys : List String) (selectedModels : Option (List String))
    (questions : List QuestionSpecD) (defaultMaxD : Dec10)
    (respOf : String → String → ProviderResp) : Except String ExamOutcome :=
  let availableModels :=
    match selectedModels with
    | some sel =>
      if sel.isEmpty then apiKeys else sel.filter (fun m => apiKeys.contains m)
    | none => apiKeys
  if availableModels.isEmpty then
    .ok (.noProviders "没有可用的模型，请检查API Key配置或选择的模型")
  else do
    let allResults ← questions.mapM (fun q => do
      let entries ← availableModels.mapM (fun prov =>
        providerStep (apiKeys.contains prov) (currentMaxD q defaultMaxD) prov
          (respOf prov q.id))
      pure (q.uniqueId, entries))
    pure (.report (combineResultsV2 allResults (questions.map qSpecOfD) defaultMaxD.toRat))

/-- Task status as recorded by `run_grading_task` (source lines 1237-1288):
an uncaught exception and a `success=False` report both set
`status='error'`; only a successful report completes the task and persists
an exam report. -/
inductive TaskStatus where
  | completed (rep : CombinedReport)
  | errored (msg : String)

/-- Model of `run_grading_task`. -/
def runGradingTaskM (apiKeys : List String) (selectedModels : Option (List String))
    (questions : List QuestionSpecD) (defaultMaxD : Dec10)
    (respOf : String → String → ProviderResp) : TaskStatus :=
  match gradeExamM apiKeys selectedModels questions defaultMaxD respOf with
  | .error e => .errored e
  | .ok (.noProviders msg) => .errored msg
  | .ok (.report r) => .completed r

/-- Error discriminator of a task status. -/
def TaskStatus.isError : TaskStatus → Bool
  | .errored _ => true
  | .completed _ => false

/-- Error message of a task status. -/
def TaskStatus.errMsg : TaskStatus → Option String
  | .errored m => some m
  | .completed _ => none

/-- Report persisted for a task, `none` when the task errored. -/
def TaskStatus.reportOf : TaskStatus → Option CombinedReport
  | .completed r => some r
  | .errored _ => none

/-- File-system side effects of one `grade_with_model` call. -/
inductive FSOp where
  | write (path : String)
  | removeAttempt (path : String) (ok : Bool)
deriving Repr, DecidableEq

/-- How far one `grade_with_model` call gets: preprocessing can raise before
the artifact is written, the provider call can raise after it, or the call
completes and returns (successfully parsed or not). -/
inductive CallProgress where
  | failsBeforeWrite
  | raisesAfterWrite
  | completes
deriving Repr, DecidableEq

/-- Artifact path `temp_<basename>` (source line 159). -/
def tempArtifact (imageName : String) : String :=
  "temp_" ++ imageName

/-- The bounded removal loop of the exception handler (source lines 452-459):
up to `n` tries, stopping at the first success; `busy` says which attempts
hit a transient `PermissionError`.  Exhausting the retries leaves the file
and falls through without raising. -/
def removalAttempts (path : String) : List Bool → Nat → List FSOp
  | _, 0 => []
  | [], _ + 1 => [.removeAttempt path true]
  | b :: rest, n + 1 =>
    if b then .removeAttempt path false :: removalAttempts path rest n
    else [.removeAttempt path true]

/-- Artifact trace of one `grade_with_model` call (source lines 142-469): a
missing key returns before any write; otherwise one processed-image artifact
is written, and removal is attempted — inside the `except` handler only — on
the exception path; the normal return path (lines 431-447) performs no
cleanup.  Failures of the cleanup itself are caught and logged (lines
460-461), never re-raised, which is why this is a total function into a
trace rather than an exception. -/
def gradeWithModelArtifacts (keyConfigured : Bool) (imageName : String)
    (progress : CallProgress) (busy : List Bool) : List FSOp :=
  if !keyConfigured then []
  else
    match progress with
    | .failsBeforeWrite => []
    | .raisesAfterWrite =>
      .write (tempArtifact imageName) :: removalAttempts (tempArtifact imageName) busy 3
    | .completes => [.write (tempArtifact imageName)]

/-- Removal attempts within a trace. -/
def removesIn (ops : List FSOp) : List FSOp :=
  ops.filter (fun o =>
    match o with
    | .removeAttempt _ _ => true
    | .write _ => false)

/-- The per-question final score that claim C1's words prescribe: the mean of
only the providers that returned a usable score, rounded and clamped, and 0
when no provider succeeded.  Stated from the spec's sentence, for comparison
with the source behaviour. -/
def specUsableFinal (outs : List (String × GradeOutcome)) (m : ℚ) : ℚ :=
  let us := usableScores outs
  if 0 < us.length then
    max 0 (min (roundToNearestHalf (us.sum / (us.length : ℚ))) m)
  else 0

/-- Full score 10, the source default, as an exact decimal. -/
def m10 : Dec10 := ⟨10, 0⟩

/-- Bare JSON response (claim C4 case a). -/
def exBare : List Char :=
  "\x7b\"score\": 8, \"is_correct\": true, \"comment\": \"ok\"\x7d".data

/-- Fenced JSON with surrounding prose (claim C4 case b). -/
def exFenced : List Char :=
  "Sure! Here is my grading:\n```json\n\x7b\"score\": 5, \"comment\": \"ok\"\x7d\n```\nHope this helps.".data

/-- JSON missing its final closing brace (claim C4 case c). -/
def exNoBrace : List Char :=
  "\x7b\"score\": 3, \"is_correct\": false, \"comment\": \"weak\"".data

/-- JSON whose last string value is missing its closing quote (claim C4
case d). -/
def exNoQuote : List Char :=
  "\x7b\"score\": 7, \"comment\": \"good".data

/-- Valid JSON object with no score field (claims C3 and C8). -/
def exNoScore : List Char :=
  "\x7b\"is_correct\": true\x7d".data

/-- Pure prose with no opening brace (claim C4). -/
def exProse : List Char :=
  "The student answered well. Score eight of ten.".data

/-- The parsed fields of `exBare` (claim C3 witness). -/
def parsedBare : List (List Char × JVal) :=
  (parseGradingResponse exBare m10).getD []

/-- One successful provider at full marks next to one failed provider
(claim C1 counterexample). -/
def outsMixed : List (String × GradeOutcome) :=
  [("qwen-vl-max", .ok ⟨10, "", "ok"⟩), ("glm-4v", .failed "批改失败")]

/-- Two providers scoring 10 and 6 on a grouped question, the spec's
disagreement scenario (claims C2 and C7 witnesses). -/
def arPair : String × List (String × PEntry) :=
  ("一、选择题-3", [("qwen-vl-max", ⟨10, "", ""⟩), ("glm-4v", ⟨6, "", ""⟩)])

/-- A provider score equal to a non-half max score of 1.3 (claim C2
counterexample). -/
def entry13 : PEntry := ⟨13 / 10, "", ""⟩

/-- Structure result that succeeded but found no questions (claim C5
counterexample). -/
def srEmptyGroups : StructureResult := ⟨true, some [], none, none⟩

/-- Structure result whose discovery failed (claim C5 witness). -/
def srFailed : StructureResult := ⟨false, none, none, none⟩

/-- One group of one multiple-choice question with no attached point value
(claim C6 witness). -/
def gC6 : SGroup := ⟨some "一、选择题", none, [⟨some "1", none, none⟩]⟩

/-- Successful structure result holding `gC6` (claim C6 witness). -/
def srC6 : StructureResult := ⟨true, some [gC6], none, none⟩

/-!
Theorems.  The helper lemmas come first, then one theorem per claim with its
witness or counterexample.
-/

theorem dec10_cross (m₁ m₂ e₁ e₂ : Int) (h : e₁ ≤ e₂) :
    (m₁ : ℚ) * 10 ^ e₁ ≤ (m₂ : ℚ) * 10 ^ e₂ ↔ m₁ ≤ m₂ * 10 ^ (e₂ - e₁).toNat := by
  have h10 : (0 : ℚ) < 10 ^ e₁ := zpow_pos (by norm_num) _
  have he : (((e₂ - e₁).toNat : Int)) + e₁ = e₂ := by omega
  have key : (m₂ : ℚ) * 10 ^ e₂ = (m₂ * 10 ^ (e₂ - e₁).toNat : Int) * 10 ^ e₁ := by
    push_cast
    rw [mul_assoc, ← zpow_natCast (10 : ℚ) (e₂ - e₁).toNat,
      ← zpow_add₀ (by norm_num : (10:ℚ) ≠ 0), he]
  rw [key, mul_le_mul_right h10]
  exact_mod_cast Iff.rfl

/-- Correctness of the kernel-executable comparison against the rational
order. -/
theorem decLe_iff (a b : Dec10) : decLe a b = true ↔ a.toRat ≤ b.toRat := by
  unfold decLe Dec10.toRat
  by_cases h : a.exp10 ≤ b.exp10
  · simp only [h, if_true, decide_eq_true_eq]
    exact (dec10_cross a.mant b.mant a.exp10 b.exp10 h).symm
  · simp only [h, if_false, decide_eq_true_eq]
    have h' : b.exp10 ≤ a.exp10 := le_of_not_le h
    have he : (((a.exp10 - b.exp10).toNat : Int)) + b.exp10 = a.exp10 := by omega
    have key : (a.mant : ℚ) * 10 ^ a.exp10
        = (a.mant * 10 ^ (a.exp10 - b.exp10).toNat : Int) * 10 ^ b.exp10 := by
      push_cast
      rw [mul_assoc, ← zpow_natCast (10 : ℚ) (a.exp10 - b.exp10).toNat,
        ← zpow_add₀ (by norm_num : (10:ℚ) ≠ 0), he]
    have h10 : (0 : ℚ) < 10 ^ b.exp10 := zpow_pos (by norm_num) _
    rw [key, mul_le_mul_right h10]
    exact_mod_cast Iff.rfl

/-- Value of `decMin` under `toRat` is the rational minimum. -/
theorem decMin_toRat (a b : Dec10) : (decMin a b).toRat = min a.toRat b.toRat := by
  unfold decMin
  by_cases h : decLe a b
  · rw [if_pos h, min_eq_left ((decLe_iff a b).mp h)]
  · rw [if_neg h]
    have : ¬ a.toRat ≤ b.toRat := fun hc => h ((decLe_iff a b).mpr hc)
    rw [min_eq_right (le_of_not_le this)]

/-- Value of `decMax` under `toRat` is the rational maximum. -/
theorem decMax_toRat (a b : Dec10) : (decMax a b).toRat = max a.toRat b.toRat := by
  unfold decMax
  by_cases h : decLe b a
  · rw [if_pos h, max_eq_left ((decLe_iff b a).mp h)]
  · rw [if_neg h]
    have : ¬ b.toRat ≤ a.toRat := fun hc => h ((decLe_iff b a).mpr hc)
    rw [max_eq_right (le_of_not_le this)]

/-- Value of zero. -/
theorem d0_toRat : d0.toRat = 0 := by simp [d0, Dec10.toRat]

theorem mem_skipJWs {x : Char} {cs : List Char} (h : x ∈ skipJWs cs) : x ∈ cs :=
  (List.dropWhile_sublist _).subset h

theorem mem_rstripPy {x : Char} {cs : List Char} (h : x ∈ rstripPy cs) : x ∈ cs := by
  unfold rstripPy at h
  rw [List.mem_reverse] at h
  exact List.mem_reverse.mp ((List.dropWhile_sublist _).subset h)

theorem firstIdx_none {c : Char} {cs : List Char} (h : c ∉ cs) : firstIdx c cs = none := by
  induction cs with
  | nil => rfl
  | cons x xs ih =>
    simp only [List.mem_cons, not_or] at h
    simp [firstIdx, Ne.symm h.1, ih h.2]

theorem tabRep_lbrace {cs : List Char} (h : lbrace ∈ tabRep cs) : lbrace ∈ cs := by
  induction cs with
  | nil => simp [tabRep] at h
  | cons x xs ih =>
    simp only [tabRep] at h
    by_cases hx : x = '\t'
    · simp only [hx, if_true, List.mem_cons] at h
      rcases h with h | h | h
      · exact absurd h (by decide)
      · exact absurd h (by decide)
      · exact List.mem_cons_of_mem _ (ih h)
    · simp only [hx, if_false, List.mem_cons] at h
      rcases h with h | h
      · exact h ▸ List.mem_cons_self _ _
      · exact List.mem_cons_of_mem _ (ih h)

theorem parseLeaf_ne_obj {fuel : Nat} {cs : List Char} {ms : List (List Char × JVal)}
    {r : List Char} : parseLeaf fuel cs ≠ some (.jobj ms, r) := by
  intro h
  match fuel with
  | 0 => simp [parseLeaf] at h
  | fuel + 1 =>
    simp only [parseLeaf] at h
    repeat' split at h
    all_goals simp at h

theorem parseValue_obj_mem {fuel : Nat} {cs : List Char} {ms : List (List Char × JVal)}
    {r : List Char} (h : parseValue fuel cs = some (.jobj ms, r)) : lbrace ∈ cs := by
  match fuel with
  | 0 => simp [parseValue] at h
  | fuel + 1 =>
    simp only [parseValue] at h
    split at h
    · exact absurd h (by simp)
    case h_2 c rest heq =>
      by_cases hc : c = lbrace
      · exact mem_skipJWs (heq ▸ (hc ▸ List.mem_cons_self c rest))
      · rw [if_neg hc] at h
        exact absurd h parseLeaf_ne_obj

theorem jsonLoads_obj_mem {cs : List Char} {ms : List (List Char × JVal)}
    (h : jsonLoads cs = some (.jobj ms)) : lbrace ∈ cs := by
  unfold jsonLoads at h
  split at h
  case h_1 v rest heq =>
    split at h
    · exact parseValue_obj_mem ((Option.some.injEq _ _).mp h ▸ heq)
    · exact absurd h (by simp)
  case h_2 => exact absurd h (by simp)

theorem tryParse_obj_mem {cs : List Char} {ms : List (List Char × JVal)}
    (h : tryParse cs = some (.jobj ms)) : lbrace ∈ cs :=
  tabRep_lbrace (jsonLoads_obj_mem h)

theorem processResult_obj {m : Dec10} {v : JVal} {r : List (List Char × JVal)}
    (h : processResult m v = some r) : ∃ ms, v = .jobj ms := by
  unfold processResult at h
  split at h
  · exact absurd h (by simp)
  · split at h
    all_goals first
      | exact ⟨_, rfl⟩
      | exact absurd h (by simp)

theorem braceSliceAttempt_none {m : Dec10} {b : List Char} (hb : lbrace ∉ b) :
    braceSliceAttempt m b = none := by
  unfold braceSliceAttempt
  rw [firstIdx_none hb]

theorem tryBlocks_none {m : Dec10} {bs : List (List Char)}
    (h : ∀ b ∈ bs, lbrace ∉ b) : tryBlocks m bs = none := by
  induction bs with
  | nil => rfl
  | cons b rest ih =>
    simp only [tryBlocks, braceSliceAttempt_none (h b (List.mem_cons_self b rest))]
    exact ih (fun x hx => h x (List.mem_cons_of_mem b hx))

theorem mem_afterFence {x : Char} {cs : List Char} {p : Nat}
    (h : x ∈ afterFence cs p) : x ∈ cs := by
  unfold afterFence at h
  have h1 := (List.dropWhile_sublist _).subset h
  split at h1
  · exact List.drop_subset _ _ (List.drop_subset _ _ h1)
  · exact List.drop_subset _ _ h1

theorem mem_extractBlocksAux {fuel : Nat} {cs b : List Char}
    (hb : b ∈ extractBlocksAux fuel cs) : ∀ x ∈ b, x ∈ cs := by
  induction fuel generalizing cs with
  | zero => simp [extractBlocksAux] at hb
  | succ fuel ih =>
    simp only [extractBlocksAux] at hb
    split at hb
    · simp at hb
    case h_2 p heq =>
      split at hb
      · simp at hb
      case h_2 q heq2 =>
        rcases List.mem_cons.mp hb with hb1 | hb2
        · intro x hx
          subst hb1
          exact mem_afterFence (List.take_subset _ _ (mem_rstripPy hx))
        · intro x hx
          exact mem_afterFence (List.drop_subset _ _ (ih hb2 x hx))

theorem mem_insLen {b x : List Char} {l : List (List Char)}
    (h : b ∈ insLen x l) : b = x ∨ b ∈ l := by
  induction l with
  | nil => simpa [insLen] using h
  | cons y ys ih =>
    simp only [insLen] at h
    split at h
    · rcases List.mem_cons.mp h with h1 | h2
      · exact Or.inr (h1 ▸ List.mem_cons_self y ys)
      · rcases ih h2 with h3 | h4
        · exact Or.inl h3
        · exact Or.inr (List.mem_cons_of_mem y h4)
    · rcases List.mem_cons.mp h with h1 | h2
      · exact Or.inl h1
      · exact Or.inr h2

theorem mem_sortLenDesc {b : List Char} {l : List (List Char)}
    (h : b ∈ sortLenDesc l) : b ∈ l := by
  induction l with
  | nil => simp [sortLenDesc] at h
  | cons x xs ih =>
    simp only [sortLenDesc] at h
    rcases mem_insLen h with h1 | h2
    · exact h1 ▸ List.mem_cons_self x xs
    · exact List.mem_cons_of_mem x (ih h2)

theorem countCh_zero {c : Char} {cs : List Char} (h : c ∉ cs) : countCh c cs = 0 := by
  unfold countCh
  exact List.count_eq_zero.mpr h

theorem repairAttempt_no_lbrace {m : Dec10} {jsonStr : List Char}
    (h : lbrace ∉ jsonStr) : repairAttempt m jsonStr = none := by
  unfold repairAttempt
  have h1 : lbrace ∉ rstripPy jsonStr := fun hx => h (mem_rstripPy hx)
  set js1 := rstripPy jsonStr with hjs1
  set js2 := if countCh '"' js1 % 2 = 1 then js1 ++ ['"'] else js1 with hjs2
  have h2 : lbrace ∉ js2 := by
    rw [hjs2]
    split
    · intro hx
      rcases List.mem_append.mp hx with hx1 | hx2
      · exact h1 hx1
      · simp at hx2
        exact absurd hx2 (by decide)
    · exact h1
  have h3 : countCh lbrace js2 = 0 := countCh_zero h2
  have h4 : ¬ (countCh rbrace js2 < countCh lbrace js2) := by
    rw [h3]
    exact Nat.not_lt_zero _
  simp only [if_neg h4]
  cases htp : tryParse js2 with
  | none => rfl
  | some res =>
    dsimp only
    by_cases hto : jTruthy res
    · rw [if_pos hto]
      cases hpr : processResult m res with
      | none => rfl
      | some r =>
        obtain ⟨ms, rfl⟩ := processResult_obj hpr
        exact absurd (tryParse_obj_mem htp) h2
    · rw [if_neg hto]

theorem mainJsonStr_no_lbrace {cs : List Char} (h : lbrace ∉ cs) : mainJsonStr cs = cs := by
  unfold mainJsonStr
  rw [firstIdx_none h]

theorem parseGradingResponse_no_lbrace {cs : List Char} {m : Dec10}
    (h : lbrace ∉ cs) : parseGradingResponse cs m = none := by
  have hblocks : tryBlocks m (sortLenDesc (extractBlocks cs)) = none := by
    apply tryBlocks_none
    intro b hb hxin
    exact h (mem_extractBlocksAux (mem_sortLenDesc hb) lbrace hxin)
  unfold parseGradingResponse
  rw [hblocks, braceSliceAttempt_none h, mainJsonStr_no_lbrace h]
  exact repairAttempt_no_lbrace h

theorem braceSliceAttempt_some {m : Dec10} {b : List Char} {r : List (List Char × JVal)}
    (h : braceSliceAttempt m b = some r) : ∃ v, processResult m v = some r := by
  unfold braceSliceAttempt at h
  repeat' split at h
  all_goals first
    | exact absurd h (by simp)
    | exact ⟨_, h⟩

theorem repairAttempt_some {m : Dec10} {jsonStr : List Char} {r : List (List Char × JVal)}
    (h : repairAttempt m jsonStr = some r) : ∃ v, processResult m v = some r := by
  unfold repairAttempt at h
  dsimp only at h
  repeat' split at h
  all_goals first
    | exact absurd h (by simp)
    | exact ⟨_, h⟩

theorem tryBlocks_some {m : Dec10} {bs : List (List Char)} {r : List (List Char × JVal)}
    (h : tryBlocks m bs = some r) : ∃ v, processResult m v = some r := by
  induction bs with
  | nil => simp [tryBlocks] at h
  | cons b rest ih =>
    simp only [tryBlocks] at h
    split at h
    · rename_i heq
      exact braceSliceAttempt_some (by rw [heq, h])
    · exact ih h

theorem parseGradingResponse_from_processResult {cs : List Char} {m : Dec10}
    {r : List (List Char × JVal)} (h : parseGradingResponse cs m = some r) :
    ∃ v, processResult m v = some r := by
  unfold parseGradingResponse at h
  split at h
  · rename_i heq
    exact tryBlocks_some (by rw [heq, h])
  · split at h
    · rename_i heq
      exact braceSliceAttempt_some (by rw [heq, h])
    · exact repairAttempt_some h



theorem dictGet_setScoreVal (x : JVal) (ms : List (List Char × JVal)) :
    dictGet scoreKey (setScoreVal x ms) = (dictGet scoreKey ms).map (fun _ => x) := by
  induction ms with
  | nil => rfl
  | cons p rest ih =>
    obtain ⟨k, v⟩ := p
    by_cases hk : k = scoreKey
    all_goals simp only [setScoreVal, List.map_cons] at ih ⊢
    · rw [show (if (k, v).1 = scoreKey then ((k, v).1, x) else (k, v)) = (k, x) from by simp [hk]]
      simp only [dictGet]
      rw [ih]
      cases hr : dictGet scoreKey rest
      · simp [hk]
      · simp
    · rw [show (if (k, v).1 = scoreKey then ((k, v).1, x) else (k, v)) = (k, v) from by simp [hk]]
      simp only [dictGet]
      rw [ih]
      cases hr : dictGet scoreKey rest
      · simp [hk]
      · simp

theorem clamp_toRat (q m : Dec10) :
    (decMax d0 (decMin q m)).toRat = max 0 (min q.toRat m.toRat) := by
  rw [decMax_toRat, decMin_toRat, d0_toRat]

theorem processResult_num_score {m : Dec10} {ms : List (List Char × JVal)} {sv : JVal}
    {q : Dec10} (hms : ms ≠ []) (hsv : dictGet scoreKey ms = some sv)
    (hq : pyFloat sv = some q) :
    processResult m (.jobj ms) = some (setScoreVal (.jnum (decMax d0 (decMin q m))) ms) := by
  unfold processResult
  rw [if_neg (by simp [jTruthy, hms])]
  dsimp only
  rw [hsv]
  dsimp only
  rw [hq]

theorem processResult_nonnum_score {m : Dec10} {ms : List (List Char × JVal)} {sv : JVal}
    (hms : ms ≠ []) (hsv : dictGet scoreKey ms = some sv) (hq : pyFloat sv = none) :
    processResult m (.jobj ms) = some (setScoreVal (.jnum d0) ms) := by
  unfold processResult
  rw [if_neg (by simp [jTruthy, hms])]
  dsimp only
  rw [hsv]
  dsimp only
  rw [hq]

theorem processResult_score {m : Dec10} {v : JVal} {r : List (List Char × JVal)}
    (h : processResult m v = some r) :
    dictGet scoreKey r = none ∨
      ∃ n : Dec10, dictGet scoreKey r = some (.jnum n) ∧
        0 ≤ n.toRat ∧ (0 ≤ m.toRat → n.toRat ≤ m.toRat) := by
  obtain ⟨ms, rfl⟩ := processResult_obj h
  unfold processResult at h
  split at h
  · exact absurd h (by simp)
  · dsimp only at h
    split at h
    case h_1 sv heq =>
      split at h
      case h_1 q heq2 =>
        obtain rfl := Option.some.inj h
        rw [dictGet_setScoreVal, heq]
        refine Or.inr ⟨decMax d0 (decMin q m), rfl, ?_, ?_⟩
        · rw [decMax_toRat, d0_toRat]
          exact le_max_left _ _
        · intro hm
          rw [clamp_toRat]
          exact max_le hm (min_le_right _ _)
      case h_2 heq2 =>
        obtain rfl := Option.some.inj h
        rw [dictGet_setScoreVal, heq]
        exact Or.inr ⟨d0, rfl, d0_toRat.symm ▸ le_rfl, fun hm => d0_toRat.symm ▸ hm⟩
    case h_2 heq =>
      obtain rfl := Option.some.inj h
      rw [heq]
      exact Or.inl rfl

theorem pyRound_intCast (k : ℤ) : pyRound (k : ℚ) = k := by
  unfold pyRound
  rw [Int.floor_intCast]
  norm_num

theorem roundToNearestHalf_zero : roundToNearestHalf 0 = 0 := by
  unfold roundToNearestHalf
  rw [show (2 * (0:ℚ)) = ((0:ℤ) : ℚ) by norm_num, pyRound_intCast]
  norm_num

theorem details_mem {ar : List (String × List (String × PEntry))}
    {qi : List QuestionSpec} {dm : ℚ} {x : String × QResult}
    (hx : x ∈ (combineResultsV2 ar qi dm).details) :
    ∃ p ∈ ar, x = (p.1, perQuestion qi dm p) := by
  unfold combineResultsV2 at hx
  dsimp only at hx
  obtain ⟨p, hp, rfl⟩ := List.mem_map.mp hx
  exact ⟨p, hp, rfl⟩

theorem perQuestion_score (qi : List QuestionSpec) (dm : ℚ) (p : String × List (String × PEntry)) :
    (perQuestion qi dm p).score =
      (if 0 < (p.2.map (fun e => e.2.score)).length then
        max 0 (min (roundToNearestHalf ((p.2.map (fun e => e.2.score)).sum / ((p.2.map (fun e => e.2.score)).length : ℚ)))
          (perQuestion qi dm p).maxScore)
      else 0) := rfl

theorem perQuestion_isCorrect (qi : List QuestionSpec) (dm : ℚ) (p : String × List (String × PEntry)) :
    (perQuestion qi dm p).isCorrect
      = decide ((perQuestion qi dm p).maxScore * (3 / 5) ≤ (perQuestion qi dm p).score) := rfl

theorem perQuestion_comment (qi : List QuestionSpec) (dm : ℚ) (p : String × List (String × PEntry)) :
    (perQuestion qi dm p).comment =
      (if (perQuestion qi dm p).isCorrect then "正确"
       else if (perQuestion qi dm p).maxScore * (1 / 2) ≤ (perQuestion qi dm p).score then "基本正确"
       else if 0 < (perQuestion qi dm p).score then "部分正确"
       else "错误") := rfl

theorem perQuestion_modelScores (qi : List QuestionSpec) (dm : ℚ)
    (p : String × List (String × PEntry)) :
    (perQuestion qi dm p).modelScores = p.2 := rfl

theorem perQuestion_score_nonneg (qi : List QuestionSpec) (dm : ℚ)
    (p : String × List (String × PEntry)) : 0 ≤ (perQuestion qi dm p).score := by
  rw [perQuestion_score]
  split
  · exact le_max_left _ _
  · exact le_rfl



/-- Claim C7: in every aggregated question result, `is_correct` holds exactly
when `final_score ≥ 0.6 × max_score`, and the comment is 正确 ("correct")
when `is_correct`, 基本正确 ("mostly correct") when `final_score ≥ 0.5 ×
max_score`, 部分正确 ("partially correct") when `final_score > 0`, and 错误
("incorrect") when `final_score` is 0, the earlier case winning. -/
theorem claim_C7 (ar : List (String × List (String × PEntry)))
    (qi : List QuestionSpec) (dm : ℚ) (x : String × QResult)
    (hx : x ∈ (combineResultsV2 ar qi dm).details) :
    (x.2.isCorrect = true ↔ x.2.maxScore * (3 / 5) ≤ x.2.score) ∧
    (x.2.comment = "正确" ↔ x.2.isCorrect = true) ∧
    (x.2.comment = "基本正确" ↔ x.2.isCorrect = false ∧ x.2.maxScore * (1 / 2) ≤ x.2.score) ∧
    (x.2.comment = "部分正确" ↔
      x.2.isCorrect = false ∧ ¬ x.2.maxScore * (1 / 2) ≤ x.2.score ∧ 0 < x.2.score) ∧
    (x.2.comment = "错误" ↔
      x.2.isCorrect = false ∧ ¬ x.2.maxScore * (1 / 2) ≤ x.2.score ∧ x.2.score = 0) ∧
    0 ≤ x.2.score := by
  obtain ⟨p, hp, rfl⟩ := details_mem hx
  dsimp only
  have hcmt := perQuestion_comment qi dm p
  have hic := perQuestion_isCorrect qi dm p
  have h0 := perQuestion_score_nonneg qi dm p
  by_cases h1 : (perQuestion qi dm p).maxScore * (3 / 5) ≤ (perQuestion qi dm p).score
  · have hict : (perQuestion qi dm p).isCorrect = true := by
      rw [hic]
      exact decide_eq_true h1
    have hcv : (perQuestion qi dm p).comment = "正确" := by
      rw [hcmt, hict, if_pos rfl]
    refine ⟨iff_of_true hict h1, iff_of_true hcv hict, ?_, ?_, ?_, h0⟩
    · exact iff_of_false (by rw [hcv]; decide) (fun hr => by rw [hict] at hr; exact absurd hr.1 (by decide))
    · exact iff_of_false (by rw [hcv]; decide) (fun hr => by rw [hict] at hr; exact absurd hr.1 (by decide))
    · exact iff_of_false (by rw [hcv]; decide) (fun hr => by rw [hict] at hr; exact absurd hr.1 (by decide))
  · have hicf : (perQuestion qi dm p).isCorrect = false := by
      rw [hic]
      exact decide_eq_false h1
    have hiff : ¬ ((perQuestion qi dm p).isCorrect = true) := by
      rw [hicf]
      decide
    by_cases h2 : (perQuestion qi dm p).maxScore * (1 / 2) ≤ (perQuestion qi dm p).score
    · have hcv : (perQuestion qi dm p).comment = "基本正确" := by
        rw [hcmt, hicf, if_neg (by decide), if_pos h2]
      refine ⟨iff_of_false hiff h1, iff_of_false (by rw [hcv]; decide) hiff, ?_, ?_, ?_, h0⟩
      · exact iff_of_true hcv ⟨hicf, h2⟩
      · exact iff_of_false (by rw [hcv]; decide) (fun hr => hr.2.1 h2)
      · exact iff_of_false (by rw [hcv]; decide) (fun hr => hr.2.1 h2)
    · by_cases h3 : (0 : ℚ) < (perQuestion qi dm p).score
      · have hcv : (perQuestion qi dm p).comment = "部分正确" := by
          rw [hcmt, hicf, if_neg (by decide), if_neg h2, if_pos h3]
        refine ⟨iff_of_false hiff h1, iff_of_false (by rw [hcv]; decide) hiff, ?_, ?_, ?_, h0⟩
        · exact iff_of_false (by rw [hcv]; decide) (fun hr => h2 hr.2)
        · exact iff_of_true hcv ⟨hicf, h2, h3⟩
        · exact iff_of_false (by rw [hcv]; decide) (fun hr => absurd hr.2.2 (ne_of_gt h3))
      · have hsz : (perQuestion qi dm p).score = 0 := le_antisymm (not_lt.mp h3) h0
        have hcv : (perQuestion qi dm p).comment = "错误" := by
          rw [hcmt, hicf, if_neg (by decide), if_neg h2, if_neg h3]
        refine ⟨iff_of_false hiff h1, iff_of_false (by rw [hcv]; decide) hiff, ?_, ?_, ?_, h0⟩
        · exact iff_of_false (by rw [hcv]; decide) (fun hr => h2 hr.2)
        · exact iff_of_false (by rw [hcv]; decide) (fun hr => h3 hr.2.2)
        · exact iff_of_true hcv ⟨hicf, h2, hsz⟩



/-- Claim C2 (amended): for every aggregated question with resolved
`max_score > 0` and a non-empty set of per-provider scores, `final_score =
clamp(round_to_nearest_half(mean(provider scores)), 0, max_score)`;
consequently `final_score` lies in `[0, max_score]` and is a multiple of 0.5
or equal to `max_score` (the clamp can land on a `max_score` that is not a
half-multiple, the amendment `claim_C2_counterexample` forces); and when all
providers fail (all stored scores are 0) `final_score = 0` with `is_correct
= false`. -/
theorem claim_C2 (ar : List (String × List (String × PEntry)))
    (qi : List QuestionSpec) (dm : ℚ) (x : String × QResult)
    (hx : x ∈ (combineResultsV2 ar qi dm).details) (hm : 0 < x.2.maxScore) :
    (x.2.modelScores ≠ [] →
      x.2.score = max 0 (min (roundToNearestHalf
          ((x.2.modelScores.map (fun e => e.2.score)).sum /
            ((x.2.modelScores.map (fun e => e.2.score)).length : ℚ)))
        x.2.maxScore) ∧
      0 ≤ x.2.score ∧ x.2.score ≤ x.2.maxScore ∧
      ((∃ k : ℤ, x.2.score = (k : ℚ) / 2) ∨ x.2.score = x.2.maxScore)) ∧
    ((∀ e ∈ x.2.modelScores, e.2.score = 0) → x.2.score = 0 ∧ x.2.isCorrect = false) := by
  obtain ⟨p, hp, rfl⟩ := details_mem hx
  dsimp only at hm ⊢
  have hms : (perQuestion qi dm p).modelScores = p.2 := perQuestion_modelScores qi dm p
  have hsc := perQuestion_score qi dm p
  have hic := perQuestion_isCorrect qi dm p
  constructor
  · intro hne
    rw [hms] at hne
    have hlen : 0 < (p.2.map (fun e => e.2.score)).length := by
      rw [List.length_map]
      exact List.length_pos.mpr hne
    have heq : (perQuestion qi dm p).score =
        max 0 (min (roundToNearestHalf
            ((p.2.map (fun e => e.2.score)).sum / ((p.2.map (fun e => e.2.score)).length : ℚ)))
          (perQuestion qi dm p).maxScore) := by
      rw [hsc, if_pos hlen]
    refine ⟨by rw [hms]; exact heq, perQuestion_score_nonneg qi dm p, ?_, ?_⟩
    · rw [heq]
      exact max_le hm.le (min_le_right _ _)
    · rw [heq]
      rcases min_cases (roundToNearestHalf
          ((p.2.map (fun e => e.2.score)).sum / ((p.2.map (fun e => e.2.score)).length : ℚ)))
          (perQuestion qi dm p).maxScore with ⟨hmn, _⟩ | ⟨hmn, _⟩
      · rw [hmn]
        rcases max_cases (0 : ℚ) (roundToNearestHalf
            ((p.2.map (fun e => e.2.score)).sum /
              ((p.2.map (fun e => e.2.score)).length : ℚ))) with ⟨hmx, _⟩ | ⟨hmx, _⟩
        · exact Or.inl ⟨0, by rw [hmx]; norm_num⟩
        · exact Or.inl ⟨pyRound (2 * ((p.2.map (fun e => e.2.score)).sum /
            ((p.2.map (fun e => e.2.score)).length : ℚ))), by rw [hmx]; rfl⟩
      · rw [hmn]
        exact Or.inr (max_eq_right hm.le)
  · intro hz
    rw [hms] at hz
    have hsum : (p.2.map (fun e => e.2.score)).sum = 0 :=
      List.sum_eq_zero (fun q hq => by
        obtain ⟨e, he, rfl⟩ := List.mem_map.mp hq
        exact hz e he)
    have hzero : (perQuestion qi dm p).score = 0 := by
      rw [hsc]
      split
      · rw [hsum, zero_div, roundToNearestHalf_zero]
        rw [min_eq_left hm.le, max_eq_right le_rfl]
      · rfl
    refine ⟨hzero, ?_⟩
    rw [hic, hzero]
    apply decide_eq_false
    intro hc
    have hpos : (0:ℚ) < (perQuestion qi dm p).maxScore * (3 / 5) := by positivity
    exact absurd hc (not_le.mpr hpos)



theorem questionResults_scores (outs : List (String × GradeOutcome)) :
    (questionResults outs).map (fun e => e.2.score) =
      outs.map (fun o => match o.2 with | .ok e => e.score | .failed _ => 0) := by
  induction outs with
  | nil => rfl
  | cons o rest ih =>
    cases ho : o.2 with
    | ok e => simp [questionResults, ho, ih.symm]
    | failed err => simp [questionResults, ho, ih.symm]

theorem questionResults_length (outs : List (String × GradeOutcome)) :
    (questionResults outs).length = outs.length :=
  List.length_map _ _

/-- Claim C1 (amended): in per-question aggregation, a provider whose call
failed contributes a zero-score data point to the mean — the final score is
`clamp(round_to_nearest_half(mean), 0, max)` of the mean over all selected
providers with failures counted as 0, not the mean over successful providers
only; when every provider failed the final score is 0. -/
theorem claim_C1 (outs : List (String × GradeOutcome)) (qid : String)
    (qi : List QuestionSpec) (dm : ℚ) (hne : outs ≠ []) :
    (combineResultsV2 [(qid, questionResults outs)] qi dm).details.map (fun d => d.2.score) =
      [max 0 (min (roundToNearestHalf
          ((outs.map (fun o => match o.2 with | .ok e => e.score | .failed _ => 0)).sum /
            (outs.length : ℚ)))
        (resolvedMax ((qInfoFor qi qid).bind (fun q => q.score)) dm))] ∧
    ((∀ o ∈ outs, ∀ e, o.2 ≠ .ok e) →
      (combineResultsV2 [(qid, questionResults outs)] qi dm).details.map
        (fun d => d.2.score) = [0]) := by
  have hdet : (combineResultsV2 [(qid, questionResults outs)] qi dm).details.map
      (fun d => d.2.score) = [(perQuestion qi dm (qid, questionResults outs)).score] := rfl
  have hlen : 0 < ((questionResults outs).map (fun e => e.2.score)).length := by
    rw [List.length_map, questionResults_length]
    exact List.length_pos.mpr hne
  have hmean : ((questionResults outs).map (fun e => e.2.score)).sum /
        (((questionResults outs).map (fun e => e.2.score)).length : ℚ) =
      (outs.map (fun o => match o.2 with | .ok e => e.score | .failed _ => 0)).sum /
        (outs.length : ℚ) := by
    rw [questionResults_scores, List.length_map]
  have hmax : (perQuestion qi dm (qid, questionResults outs)).maxScore
      = resolvedMax ((qInfoFor qi qid).bind (fun q => q.score)) dm := rfl
  constructor
  · rw [hdet, perQuestion_score, if_pos hlen, hmean, hmax]
  · intro hfail
    have hz : ∀ q ∈ (questionResults outs).map (fun e => e.2.score), q = 0 := by
      intro q hq
      rw [questionResults_scores] at hq
      obtain ⟨o, ho, rfl⟩ := List.mem_map.mp hq
      obtain ⟨oname, oc⟩ := o
      cases oc with
      | ok e => exact absurd rfl (hfail (oname, .ok e) ho e)
      | failed err => rfl
    rw [hdet, perQuestion_score, if_pos hlen, List.sum_eq_zero hz, zero_div,
      roundToNearestHalf_zero, hmax]
    rcases le_total (0:ℚ) (resolvedMax ((qInfoFor qi qid).bind (fun q => q.score)) dm)
      with hm0 | hm0
    · rw [min_eq_left hm0, max_eq_right le_rfl]
    · rw [min_eq_right hm0, max_eq_left hm0]

theorem roundToNearestHalf_intCast (k : ℤ) : roundToNearestHalf (k : ℚ) = k := by
  unfold roundToNearestHalf
  rw [show (2 * (k:ℚ)) = ((2 * k : ℤ) : ℚ) by push_cast; ring, pyRound_intCast]
  push_cast
  ring

/-- Claim C3 (amended): on every successful parse, a present `score` field is
coerced to a number and clamped into `[0, max_score]` — a present non-numeric
score becomes 0 — but a missing `score` field stays missing rather than
becoming 0 (`claim_C3_counterexample`); for `max_score > 0` every score a
successful parse returns lies in `[0, max_score]`. -/
theorem claim_C3 :
    (∀ (m : Dec10) (ms : List (List Char × JVal)) (sv : JVal) (q : Dec10),
      ms ≠ [] → dictGet scoreKey ms = some sv → pyFloat sv = some q →
      processResult m (.jobj ms) = some (setScoreVal (.jnum (decMax d0 (decMin q m))) ms) ∧
      (decMax d0 (decMin q m)).toRat = max 0 (min q.toRat m.toRat)) ∧
    (∀ (m : Dec10) (ms : List (List Char × JVal)) (sv : JVal),
      ms ≠ [] → dictGet scoreKey ms = some sv → pyFloat sv = none →
      processResult m (.jobj ms) = some (setScoreVal (.jnum d0) ms)) ∧
    (∀ (cs : List Char) (m : Dec10) (r : List (List Char × JVal)),
      0 < m.toRat → parseGradingResponse cs m = some r →
      dictGet scoreKey r = none ∨
        ∃ n : Dec10, dictGet scoreKey r = some (.jnum n) ∧ 0 ≤ n.toRat ∧ n.toRat ≤ m.toRat) := by
  refine ⟨fun m ms sv q h1 h2 h3 => ⟨processResult_num_score h1 h2 h3, clamp_toRat q m⟩,
    fun m ms sv h1 h2 h3 => processResult_nonnum_score h1 h2 h3,
    fun cs m r hm hp => ?_⟩
  obtain ⟨v, hv⟩ := parseGradingResponse_from_processResult hp
  rcases processResult_score hv with h | ⟨n, hn, h0, hb⟩
  · exact Or.inl h
  · exact Or.inr ⟨n, hn, h0, hb hm.le⟩

/-- Witness for `claim_C3` at the bare-JSON response and max score 10. -/
theorem claim_C3_witness :
    0 < m10.toRat ∧
    (dictGet scoreKey parsedBare = none ∨
      ∃ n : Dec10, dictGet scoreKey parsedBare = some (.jnum n) ∧
        0 ≤ n.toRat ∧ n.toRat ≤ m10.toRat) :=
  ⟨by norm_num [m10, Dec10.toRat],
   claim_C3.2.2 exBare m10 parsedBare (by norm_num [m10, Dec10.toRat]) rfl⟩

/-- Counterexample to claim C3 as stated: the response `{"is_correct": true}`
parses successfully, yet the returned object has no `score` field at all —
a missing score does not become 0. -/
theorem claim_C3_counterexample :
    (parseGradingResponse exNoScore m10).isSome = true ∧
    ((parseGradingResponse exNoScore m10).bind (dictGet scoreKey)).isNone = true := by
  refine ⟨by decide, by decide⟩

/-- Claim C4: the parser recovers a structured result from (a) a bare JSON
object, (b) a JSON object inside a fenced code block surrounded by prose,
(c) a JSON object missing its final closing brace and (d) a JSON object
whose last string value is missing its closing quote; and for any text
containing no opening brace it returns `none` (a total function, so it never
raises). -/
theorem claim_C4 :
    scoreOf (parseGradingResponse exBare m10) = some ⟨8, 0⟩ ∧
    scoreOf (parseGradingResponse exFenced m10) = some ⟨5, 0⟩ ∧
    scoreOf (parseGradingResponse exNoBrace m10) = some ⟨3, 0⟩ ∧
    scoreOf (parseGradingResponse exNoQuote m10) = some ⟨7, 0⟩ ∧
    ∀ (cs : List Char) (m : Dec10), lbrace ∉ cs → parseGradingResponse cs m = none :=
  ⟨by decide, by decide, by decide, by decide,
   fun cs m h => parseGradingResponse_no_lbrace h⟩

/-- Witness for the universal part of `claim_C4` at a concrete prose
response. -/
theorem claim_C4_witness : parseGradingResponse exProse m10 = none :=
  claim_C4.2.2.2.2 exProse m10 (by decide)



/-- Witness for `claim_C1` at one successful and one failed provider. -/
theorem claim_C1_witness :
    (combineResultsV2 [("1", questionResults outsMixed)] [] 10).details.map
        (fun d => d.2.score) =
      [max 0 (min (roundToNearestHalf
          ((outsMixed.map (fun o => match o.2 with | .ok e => e.score | .failed _ => 0)).sum /
            (outsMixed.length : ℚ)))
        (resolvedMax ((qInfoFor [] "1").bind (fun q => q.score)) 10))] ∧
    ((∀ o ∈ outsMixed, ∀ e, o.2 ≠ .ok e) →
      (combineResultsV2 [("1", questionResults outsMixed)] [] 10).details.map
        (fun d => d.2.score) = [0]) :=
  claim_C1 outsMixed "1" [] 10 (by simp [outsMixed])

/-- Counterexample to claim C1 as stated: with one provider succeeding at
10/10 and one failing, the source aggregates 5 — the failed provider was
averaged in as a zero — whereas the mean over only the usable scores that
the claim describes would give 10. -/
theorem claim_C1_counterexample :
    (combineResultsV2 [("1", questionResults outsMixed)] [] 10).details.map
      (fun d => d.2.score) = [5] ∧
    specUsableFinal outsMixed 10 = 10 ∧ (5 : ℚ) ≠ 10 := by
  refine ⟨?_, ?_, by norm_num⟩
  · have hdet : (combineResultsV2 [("1", questionResults outsMixed)] [] 10).details.map
        (fun d => d.2.score) = [(perQuestion [] 10 ("1", questionResults outsMixed)).score] := rfl
    have hms : ((questionResults outsMixed).map (fun e => e.2.score)) = [10, 0] := rfl
    rw [hdet, perQuestion_score, if_pos (by rw [hms]; decide), hms]
    have hmean : (([10, 0] : List ℚ).sum / (([10, 0] : List ℚ).length : ℚ)) = ((5:ℤ):ℚ) := by
      simp [List.sum_cons, List.sum_nil]
      norm_num
    rw [hmean, roundToNearestHalf_intCast]
    have hmx : (perQuestion [] 10 ("1", questionResults outsMixed)).maxScore = 10 := rfl
    rw [hmx]
    norm_num
  · unfold specUsableFinal
    have hus : usableScores outsMixed = [10] := rfl
    rw [hus]
    rw [if_pos (by decide)]
    have hmean : (([10] : List ℚ).sum / (([10] : List ℚ).length : ℚ)) = ((10:ℤ):ℚ) := by
      simp [List.sum_cons, List.sum_nil]
    rw [hmean, roundToNearestHalf_intCast]
    norm_num

/-- Witness for `claim_C2` at two providers scoring 10 and 6 with max 10. -/
theorem claim_C2_witness :
    0 < (perQuestion [] 10 arPair).maxScore ∧
    0 ≤ (perQuestion [] 10 arPair).score ∧
    (perQuestion [] 10 arPair).score ≤ (perQuestion [] 10 arPair).maxScore := by
  have hm : (0:ℚ) < (perQuestion [] 10 arPair).maxScore := by
    have : (perQuestion [] 10 arPair).maxScore = 10 := rfl
    rw [this]
    norm_num
  have h := claim_C2 [arPair] [] 10 (arPair.1, perQuestion [] 10 arPair)
    (List.mem_singleton.mpr rfl) hm
  have hne : (perQuestion [] 10 arPair).modelScores ≠ [] := by
    rw [perQuestion_modelScores]
    simp [arPair]
  obtain ⟨-, h2, h3, -⟩ := h.1 hne
  exact ⟨hm, h2, h3⟩

/-- Counterexample to claim C2 as stated: with a resolved max score of 1.3
and a single provider score of 1.3 the final score is 1.3, which is not a
multiple of 0.5 — the clamp can land on a non-half max score. -/
theorem claim_C2_counterexample :
    (combineResultsV2 [("1", [("qwen-vl-max", entry13)])] [] (13 / 10)).details.map
      (fun d => d.2.score) = [13 / 10] ∧
    ¬ ∃ k : ℤ, (13 / 10 : ℚ) = (k : ℚ) / 2 := by
  constructor
  · have hdet : (combineResultsV2 [("1", [("qwen-vl-max", entry13)])] [] (13 / 10)).details.map
        (fun d => d.2.score) =
        [(perQuestion [] (13 / 10) ("1", [("qwen-vl-max", entry13)])).score] := rfl
    have hms : (([("qwen-vl-max", entry13)] : List (String × PEntry)).map
        (fun e => e.2.score)) = [13 / 10] := rfl
    rw [hdet, perQuestion_score, if_pos (by rw [hms]; decide), hms]
    have hmean : (([13 / 10] : List ℚ).sum / (([13 / 10] : List ℚ).length : ℚ)) = 13 / 10 := by
      simp [List.sum_cons, List.sum_nil]
    rw [hmean]
    have hround : roundToNearestHalf (13 / 10) = 3 / 2 := by
      unfold roundToNearestHalf pyRound
      have hfl : ⌊(2 * (13 / 10 : ℚ))⌋ = 2 := by
        rw [show (2 * (13 / 10 : ℚ)) = 13 / 5 by norm_num]
        norm_num [Int.floor_eq_iff]
      rw [hfl]
      norm_num
    rw [hround]
    have hmx : (perQuestion [] (13 / 10) ("1", [("qwen-vl-max", entry13)])).maxScore
        = 13 / 10 := rfl
    rw [hmx]
    norm_num
  · rintro ⟨k, hk⟩
    have h5 : (k : ℚ) = 13 / 5 := by linarith
    have : ((5 * k : ℤ) : ℚ) = ((13 : ℤ) : ℚ) := by
      push_cast
      linarith
    have := Int.cast_injective this
    omega

/-- Witness for `claim_C7`: two providers scoring 10 and 6 of 10 average to
8, which is correct (8 ≥ 6) with comment 正确. -/
theorem claim_C7_witness :
    (perQuestion [] 10 arPair).isCorrect = true ∧
    (perQuestion [] 10 arPair).comment = "正确" := by
  have h := claim_C7 [arPair] [] 10 (arPair.1, perQuestion [] 10 arPair)
    (List.mem_singleton.mpr rfl)
  have hs : (perQuestion [] 10 arPair).score = 8 := by
    have hms : ((arPair.2 : List (String × PEntry)).map (fun e => e.2.score)) = [10, 6] := rfl
    rw [perQuestion_score, if_pos (by rw [hms]; decide), hms]
    have hmean : (([10, 6] : List ℚ).sum / (([10, 6] : List ℚ).length : ℚ)) = ((8:ℤ):ℚ) := by
      simp [List.sum_cons, List.sum_nil]
      norm_num
    rw [hmean, roundToNearestHalf_intCast]
    have hmx : (perQuestion [] 10 arPair).maxScore = 10 := rfl
    rw [hmx]
    norm_num
  have hmx : (perQuestion [] 10 arPair).maxScore = 10 := rfl
  have hict : (perQuestion [] 10 arPair).isCorrect = true := by
    apply h.1.mpr
    rw [hs, hmx]
    norm_num
  exact ⟨hict, h.2.1.mpr hict⟩

theorem removalAttempts_length_le (path : String) :
    ∀ (busy : List Bool) (n : Nat), (removalAttempts path busy n).length ≤ n := by
  intro busy
  induction busy with
  | nil =>
    intro n
    cases n with
    | zero => simp [removalAttempts]
    | succ k => simp [removalAttempts]
  | cons b rest ih =>
    intro n
    cases n with
    | zero => simp [removalAttempts]
    | succ k =>
      by_cases hb : b
      · simp only [removalAttempts, hb, if_true, List.length_cons]
        exact Nat.succ_le_succ (ih k)
      · simp [removalAttempts, hb]

theorem removesIn_removalAttempts (path : String) :
    ∀ (busy : List Bool) (n : Nat),
      removesIn (removalAttempts path busy n) = removalAttempts path busy n := by
  intro busy
  induction busy with
  | nil =>
    intro n
    cases n with
    | zero => rfl
    | succ k => rfl
  | cons b rest ih =>
    intro n
    cases n with
    | zero => rfl
    | succ k =>
      by_cases hb : b
      · simp only [removalAttempts, hb, if_true]
        simp only [removesIn, List.filter_cons]
        simp only [show ((fun o => match o with
            | FSOp.removeAttempt _ _ => true
            | FSOp.write _ => false) (FSOp.removeAttempt path false)) = true from rfl, if_true]
        have := ih k
        unfold removesIn at this
        rw [this]
      · simp [removalAttempts, hb, removesIn]

/-- Claim C9 (amended): a provider call with a configured key writes exactly
one processed-image artifact; removal of it is attempted — with at most
three tries, stopping at the first success, and never escalated (the trace
function is total, the handler swallows cleanup errors) — but only on the
exception path: a call that returns normally performs no removal attempt at
all (`claim_C9_counterexample`), and a missing key or a failure before the
write leaves no artifact. -/
theorem claim_C9 :
    (∀ (img : String) (busy : List Bool),
      gradeWithModelArtifacts true img .completes busy = [.write (tempArtifact img)] ∧
      removesIn (gradeWithModelArtifacts true img .completes busy) = []) ∧
    (∀ (img : String) (busy : List Bool),
      gradeWithModelArtifacts true img .raisesAfterWrite busy =
        .write (tempArtifact img) :: removalAttempts (tempArtifact img) busy 3 ∧
      (removalAttempts (tempArtifact img) busy 3).length ≤ 3 ∧
      removesIn (gradeWithModelArtifacts true img .raisesAfterWrite busy) =
        removalAttempts (tempArtifact img) busy 3) ∧
    (∀ (img : String) (prog : CallProgress) (busy : List Bool),
      gradeWithModelArtifacts false img prog busy = []) := by
  refine ⟨fun img busy => ⟨rfl, rfl⟩,
    fun img busy => ⟨rfl, removalAttempts_length_le _ _ _, ?_⟩,
    fun img prog busy => rfl⟩
  show removesIn (.write (tempArtifact img) :: removalAttempts (tempArtifact img) busy 3) = _
  simp only [removesIn, List.filter_cons]
  simp only [show ((fun o => match o with
      | FSOp.removeAttempt _ _ => true
      | FSOp.write _ => false) (FSOp.write (tempArtifact img))) = false from rfl,
    Bool.false_eq_true, if_false]
  have := removesIn_removalAttempts (tempArtifact img) busy 3
  unfold removesIn at this
  rw [this]

/-- Counterexample to claim C9 as stated: a successful call leaves its
artifact in place — the trace contains the write and no removal attempt,
contradicting "on every call (successful or failed) removal is
attempted". -/
theorem claim_C9_counterexample :
    gradeWithModelArtifacts true "exam.jpg" .completes [] = [.write "temp_exam.jpg"] ∧
    removesIn (gradeWithModelArtifacts true "exam.jpg" .completes []) = [] :=
  ⟨rfl, rfl⟩



/-- Claim C8, evaluated at its failing input.  The zero-provider path does
end the task in the error state with the configuration message and no
report (first three conjuncts).  But it is not the only non-decode path to
the failed state: with one configured provider whose response is the valid
JSON `{"is_correct": true}` — no `score` field — the logging access
`result['score']` raises an uncaught `KeyError` and the task also ends in
the error state with no report (last three conjuncts). -/
theorem claim_C8 :
    (runGradingTaskM [] none (mkNumberedD 1) m10 (fun _ _ => .raises)).isError = true ∧
    (runGradingTaskM [] none (mkNumberedD 1) m10 (fun _ _ => .raises)).errMsg =
      some "没有可用的模型，请检查API Key配置或选择的模型" ∧
    ((runGradingTaskM [] none (mkNumberedD 1) m10 (fun _ _ => .raises)).reportOf).isNone = true ∧
    (runGradingTaskM ["qwen-vl-max"] none (mkNumberedD 1) m10
      (fun _ _ => .text "\x7b\"is_correct\": true\x7d")).isError = true ∧
    (runGradingTaskM ["qwen-vl-max"] none (mkNumberedD 1) m10
      (fun _ _ => .text "\x7b\"is_correct\": true\x7d")).errMsg =
      some "KeyError: missing score or is_correct field" ∧
    ((runGradingTaskM ["qwen-vl-max"] none (mkNumberedD 1) m10
      (fun _ _ => .text "\x7b\"is_correct\": true\x7d")).reportOf).isNone = true := by
  refine ⟨by decide, by decide, by decide, by decide, by decide, by decide⟩

/-- Claim C10: for every configured credential map the availability listing
has exactly the ids qwen-vl-max, gemini-3-pro, glm-4v in that order, each
available exactly when its credential is configured; a configured provider
outside the fixed list never appears in it; and grading itself accepts the
claude provider family that the listing omits. -/
theorem claim_C10 :
    (∀ keys : List String,
      (checkAvailableModels keys).map (fun m => m.id) =
        ["qwen-vl-max", "gemini-3-pro", "glm-4v"] ∧
      ∀ m ∈ checkAvailableModels keys, m.available = keys.contains m.id) ∧
    (∀ keys : List String, ∀ k ∈ keys,
      k ∉ (["qwen-vl-max", "gemini-3-pro", "glm-4v"] : List String) →
      k ∉ (checkAvailableModels keys).map (fun m => m.id)) ∧
    supportedProvider "claude" = true := by
  have hmain : ∀ keys : List String,
      (checkAvailableModels keys).map (fun m => m.id) =
        ["qwen-vl-max", "gemini-3-pro", "glm-4v"] ∧
      ∀ m ∈ checkAvailableModels keys, m.available = keys.contains m.id := by
    intro keys
    by_cases h1 : "qwen-vl-max" ∈ keys <;>
    by_cases h2 : "gemini-3-pro" ∈ keys <;>
    by_cases h3 : "glm-4v" ∈ keys <;>
    · constructor
      · simp [checkAvailableModels, modelCatalog, h1, h2, h3]
      · intro m hm
        simp [checkAvailableModels, modelCatalog, h1, h2, h3] at hm
        rcases hm with rfl | rfl | rfl <;>
          simp [List.contains, List.elem_iff, h1, h2, h3]
  refine ⟨hmain, ?_, by decide⟩
  intro keys k hk hnot
  rw [(hmain keys).1]
  exact hnot



/-- Claim C5 (amended): when structure discovery reports failure (provider
error or unparseable response) and no caller-supplied question count exists,
the fallback is exactly 10 ungrouped questions with ids "1" through "10" and
null max_score.  (When discovery succeeds but yields an empty question list,
the code instead synthesises `total_questions` entries only when that count
is present and positive, and otherwise leaves the list empty —
`claim_C5_counterexample`.) -/
theorem claim_C5 :
    ∀ (sr : StructureResult) (ts : List (String × ℚ)), sr.success = false →
      buildQuestionsFromStructure sr ts = fallbackTen ∧
      fallbackTen.map (fun q => q.id) =
        ["1", "2", "3", "4", "5", "6", "7", "8", "9", "10"] ∧
      fallbackTen.length = 10 ∧
      ∀ q ∈ fallbackTen, q.group = none ∧ q.score = none ∧ q.uniqueId = q.id := by
  intro sr ts hs
  refine ⟨?_, by decide, by decide, by decide⟩
  unfold buildQuestionsFromStructure
  rw [hs]
  rfl

/-- Witness for `claim_C5` at a concrete failed structure result. -/
theorem claim_C5_witness :
    srFailed.success = false ∧ buildQuestionsFromStructure srFailed [] = fallbackTen :=
  ⟨rfl, (claim_C5 srFailed [] rfl).1⟩

/-- Counterexample to claim C5 as stated: a discovery that succeeded but
found an empty question list (and carries no `total_questions`) yields an
empty list, not the ten-question fallback the claim requires for every
failure mode including "an empty question list". -/
theorem claim_C5_counterexample :
    srEmptyGroups.success = true ∧
    (buildQuestionsFromStructure srEmptyGroups []).length = 0 :=
  ⟨rfl, rfl⟩

/-- Claim C6: the max-score of every question produced by structure analysis
follows the exact precedence (1) value attached to the question, (2) the
section default, (3) the answer-key text rule matched by section-name
keyword, (4) hard-coded per-category defaults (选择/multiple-choice 3,
填空/fill-in 2, 判断/true-false 2), (5) null — later replaced by the
caller-supplied default (`resolvedMax` = `Option.getD`). -/
theorem claim_C6 :
    (∀ (ts : List (String × ℚ)) (gname : String) (gdef : Option ℚ) (qscore : Option ℚ),
      resolveQuestionScore ts gname gdef qscore =
        (qscore.orElse (fun _ =>
          (gdef.orElse (fun _ =>
            ((if gname ≠ "" then textScoreLookup ts gname else none).orElse (fun _ =>
              categoryDefault gname)))))) ) ∧
    (∀ (ts : List (String × ℚ)) (g : SGroup) (q : SQInfo),
      (groupQuestionSpec ts g q).score =
        resolveQuestionScore ts (g.name.getD "未知大题") g.defaultScore q.score) ∧
    (∀ (sr : StructureResult) (gs : List SGroup) (ts : List (String × ℚ)),
      sr.success = true → sr.groups = some gs →
      (gs.map (fun g => g.questions.map (groupQuestionSpec ts g))).flatten ≠ [] →
      buildQuestionsFromStructure sr ts =
        (gs.map (fun g => g.questions.map (groupQuestionSpec ts g))).flatten) ∧
    (∀ (s : Option ℚ) (d : ℚ), resolvedMax s d = s.getD d) := by
  refine ⟨?_, fun ts g q => rfl, ?_, ?_⟩
  · intro ts gname gdef qscore
    unfold resolveQuestionScore
    cases qscore with
    | some v => rfl
    | none =>
      cases gdef with
      | some v => rfl
      | none =>
        cases htl : (if gname ≠ "" then textScoreLookup ts gname else none) with
        | some v => simp [htl, Option.orElse]
        | none => simp [htl, Option.orElse]
  · intro sr gs ts hs hg hne
    unfold buildQuestionsFromStructure
    rw [hs, hg]
    simp only [Bool.not_true, Bool.false_eq_true, if_false]
    rw [if_neg (by
      intro hvoid
      exact hne (List.isEmpty_iff.mp hvoid))]
  · intro s d
    cases s <;> rfl

/-- Witness for `claim_C6` at a one-group structure result whose
multiple-choice question resolves to the category default 3. -/
theorem claim_C6_witness :
    buildQuestionsFromStructure srC6 [] =
      ([gC6].map (fun g => g.questions.map (groupQuestionSpec [] g))).flatten ∧
    resolvedMax (some 3) 10 = (some (3:ℚ)).getD 10 ∧
    (groupQuestionSpec [] gC6 ⟨some "1", none, none⟩).score = some 3 := by
  refine ⟨claim_C6.2.2.1 srC6 [gC6] [] rfl rfl (List.cons_ne_nil _ _),
    claim_C6.2.2.2 (some 3) 10, ?_⟩
  rw [claim_C6.2.1 [] gC6 ⟨some "1", none, none⟩, claim_C6.1]
  decide

/-- Witness for `claim_C10`: a configured `claude` credential never appears
in the availability listing. -/
theorem claim_C10_witness :
    "claude" ∈ (["claude", "qwen-vl-max"] : List String) ∧
    "claude" ∉ (["qwen-vl-max", "gemini-3-pro", "glm-4v"] : List String) ∧
    "claude" ∉ (checkAvailableModels ["claude", "qwen-vl-max"]).map (fun m => m.id) :=
  ⟨by decide, by decide,
   claim_C10.2.1 ["claude", "qwen-vl-max"] "claude" (by decide) (by decide)⟩

end SmartGrade
